import Mathlib

/-!
Command-line parsing and job control of the psh shell.

A shallow embedding of `sh.c`.  The global variables of the C program become
fields of explicit state records, the operating system (fork, waitpid,
tcsetpgrp, printf) becomes explicit arguments that say how each call turned
out, and every function of `sh.c` that the development talks about is a Lean
function with the same name.
-/

set_option autoImplicit false

namespace Psh

/-! ## Constants of `sh.c` -/

def BUFFER_SIZE : Nat := 1024

/-- The largest value of a C `int`. -/
def INT_MAX : Int := 2147483647

/-- The smallest value of a C `int`. -/
def INT_MIN : Int := -2147483648
def TOKENS_SIZE : Nat := 512
def ARGV_SIZE : Nat := 512

/-! ## Tokenising: the `strtok` loop of `parse` -/

/-- Membership in the delimiter set `" \t\n"` handed to `strtok`. -/
def is_delim (c : Char) : Bool :=
  c = ' ' || c = '\t' || c = '\n'

/-- The C string stored in `buffer`: the bytes before the first NUL. -/
def c_str (buffer : List Char) : List Char :=
  buffer.takeWhile (fun c => c ≠ Char.ofNat 0)

/-- The loop `while ((token = strtok(str, " \t\n")) != NULL)`: `cur` is the
token being scanned; delimiters end it, runs of delimiters yield nothing. -/
def strtok_loop : List Char → List Char → List String
  | [], cur => if cur.isEmpty then [] else [String.mk cur]
  | c :: cs, cur =>
    if is_delim c then
      if cur.isEmpty then strtok_loop cs [] else String.mk cur :: strtok_loop cs []
    else strtok_loop cs (cur ++ [c])

/-- All tokens of the buffer, in order. -/
def strtok_all (buffer : List Char) : List String :=
  strtok_loop (c_str buffer) []

/-! ## `is_redirection_sym` -/

/-- Direct image of `!(strcmp(str, "<") && strcmp(str, ">") && strcmp(str, ">>"))`. -/
def is_redirection_sym (str : String) : Bool :=
  !(decide (str ≠ "<") && decide (str ≠ ">") && decide (str ≠ ">>"))

/-! ## `parse` -/

/-- How `parse` can fail.  `bad_line msg` is `return -1` after writing `msg`
to stderr.  `out_of_bounds` is an access past the end of one of the 512-entry
global arrays, for which C defines no behaviour. -/
inductive ParseErr where
  | bad_line (msg : String)
  | out_of_bounds
  deriving DecidableEq, Repr

/-- The variables the redirection loop of `parse` writes. -/
structure LoopState where
  tokens_final : List String
  input_redirect_code : Nat
  output_redirect_code : Nat
  input_file : Option String
  output_file : Option String
  input_redirected : Bool
  output_redirected : Bool
  deriving DecidableEq, Repr

/-- State at loop entry: `main` has reset the globals, `parse` has zeroed its
locals. -/
def LoopState.init : LoopState :=
  { tokens_final := [], input_redirect_code := 0, output_redirect_code := 0,
    input_file := none, output_file := none,
    input_redirected := false, output_redirected := false }

/-- The loop `for (int i = 0; i < token_num; i++)` of `parse`.  The list is
`tokens[i..token_num)`; `tokens[i + 1]` is the head of the rest, or NULL when
the rest is empty (`main` zeroes the array), and lies outside the array when
`i + 1` reaches `TOKENS_SIZE`. -/
def redirect_loop : Nat → List String → LoopState → Except ParseErr LoopState
  | _, [], st => .ok st
  | i, t :: rest, st =>
    if t = "<" then
      if TOKENS_SIZE ≤ i + 1 then .error .out_of_bounds else
      match rest with
      | [] => .error (.bad_line "syntax error: no input file\n")
      | nxt :: rest2 =>
        if is_redirection_sym nxt then
          .error (.bad_line "syntax error: input file is a redirection symbol\n")
        else if !st.input_redirected then
          redirect_loop (i + 2) rest2
            { st with input_redirect_code := 1, input_file := some nxt,
                      input_redirected := true }
        else .error (.bad_line "syntax error: multiple input files\n")
    else if t = ">" then
      if TOKENS_SIZE ≤ i + 1 then .error .out_of_bounds else
      match rest with
      | [] => .error (.bad_line "syntax error: no output file\n")
      | nxt :: rest2 =>
        if is_redirection_sym nxt then
          .error (.bad_line "syntax error: output file is a redirection symbol\n")
        else if !st.output_redirected then
          redirect_loop (i + 2) rest2
            { st with output_redirect_code := 1, output_file := some nxt,
                      output_redirected := true }
        else .error (.bad_line "syntax error: multiple output files\n")
    else if t = ">>" then
      if TOKENS_SIZE ≤ i + 1 then .error .out_of_bounds else
      match rest with
      | [] => .error (.bad_line "syntax error: no output file\n")
      | nxt :: rest2 =>
        if is_redirection_sym nxt then
          .error (.bad_line "syntax error: output file is a redirection symbol\n")
        else if !st.output_redirected then
          redirect_loop (i + 2) rest2
            { st with output_redirect_code := 2, output_file := some nxt,
                      output_redirected := true }
        else .error (.bad_line "syntax error: multiple output files\n")
    else
      redirect_loop (i + 1) rest { st with tokens_final := st.tokens_final ++ [t] }

/-- The suffix of `s` that starts at the last occurrence of `c` (`strrchr`). -/
def strrchr (c : Char) : List Char → Option (List Char)
  | [] => none
  | x :: xs =>
    match strrchr c xs with
    | some r => some r
    | none => if x = c then some (x :: xs) else none

/-- The value stored in `argv[0]`: `&last_slash[1]` when `tokens[0]` has a
slash, `tokens[0]` otherwise. -/
def argv0 (tok : String) : String :=
  match strrchr '/' tok.data with
  | some last_slash => String.mk last_slash.tail
  | none => tok

/-- What `parse` leaves in the globals when it returns 0.  `tokens` is
`tokens[0..token_num)`; `argv` is the whole 512-entry array, `none` for NULL. -/
structure Parsed where
  tokens : List String
  token_num : Nat
  argv : List (Option String)
  input_redirect_code : Nat
  output_redirect_code : Nat
  input_file : Option String
  output_file : Option String
  bg_process_flag : Nat
  deriving DecidableEq, Repr

/-- The loop `for (int i = 1; i < token_num; i++) argv[i] = tokens[i];`. -/
def argv_loop (tokens : List String) (token_num : Nat)
    (argv : List (Option String)) : List (Option String) :=
  (List.range' 1 (token_num - 1)).foldl (fun a i => a.set i tokens[i]?) argv

/-- Lines 185-193 of `parse`: a trailing "&" sets `bg_process_flag`, its slot
is set to NULL and `token_num` drops by one.  Returns the new `tokens`,
`token_num` and `bg_process_flag`. -/
def bg_step (tokens : List String) (token_num : Nat) : List String × Nat × Nat :=
  if 0 < token_num then
    if tokens[token_num - 1]? = some "&" then (tokens.take (token_num - 1), token_num - 1, 1)
    else (tokens, token_num, 0)
  else (tokens, token_num, 0)

/-- Lines 195-214 of `parse`: fill `argv` from `tokens`.  The store
`argv[token_num] = NULL` lies outside the array when `token_num` is
`ARGV_SIZE`. -/
def argv_step (tokens : List String) (token_num : Nat)
    (argv : List (Option String)) : Except ParseErr (List (Option String)) :=
  if 0 < token_num then
    let argv := argv.set 0 ((tokens[0]?).map argv0)
    let argv := argv_loop tokens token_num argv
    if ARGV_SIZE ≤ token_num then .error .out_of_bounds else .ok (argv.set token_num none)
  else .ok argv

/-- The part of `parse` after tokenising, on the token list `toks`
(`tokens[0..token_num)` as left by the `strtok` loop, which stores one array
entry per token).  `argv` starts all NULL, as `main` leaves it. -/
def parse_tokens (toks : List String) : Except ParseErr Parsed :=
  if TOKENS_SIZE < toks.length then .error .out_of_bounds else
  match redirect_loop 0 toks LoopState.init with
  | .error e => .error e
  | .ok st =>
    -- tokens[i] = tokens_final[i]; token_num = token_final_num
    match bg_step st.tokens_final st.tokens_final.length with
    | (tokens, token_num, bg_process_flag) =>
      match argv_step tokens token_num (List.replicate ARGV_SIZE none) with
      | .error e => .error e
      | .ok argv =>
        .ok { tokens := tokens, token_num := token_num, argv := argv,
              input_redirect_code := st.input_redirect_code,
              output_redirect_code := st.output_redirect_code,
              input_file := st.input_file, output_file := st.output_file,
              bg_process_flag := bg_process_flag }

/-- The function `parse` on the bytes of `buffer`, called as `main` calls it:
with `token_num = 0` and zeroed `tokens` and `argv`. -/
def parse (buffer : List Char) : Except ParseErr Parsed :=
  parse_tokens (strtok_all buffer)

/-- The `int` that `parse` returns: 0, or -1 for a rejected line; `none` when
the call ran past an array. -/
def parse_ret (buffer : List Char) : Option Int :=
  match parse buffer with
  | .ok _ => some 0
  | .error (.bad_line _) => some (-1)
  | .error .out_of_bounds => none

/-- The two arguments of `execv(tokens[0], argv)` in `exec_child`. -/
def execv_args (p : Parsed) : Option String × List (Option String) :=
  (p.tokens[0]?, p.argv)


/-! ## Reference definitions for the parser claims

These follow the wording of the specification and are compared with the
functions above. -/

/-- A token list with every redirection operator and the token after it
removed. -/
def strip_redirections : List String → List String
  | [] => []
  | [t] => if is_redirection_sym t then [] else [t]
  | t :: u :: rest =>
    if is_redirection_sym t then strip_redirections rest
    else t :: strip_redirections (u :: rest)

/-- A token list without its last token when that token is "&". -/
def strip_amp (ts : List String) : List String :=
  if ts.getLast? = some "&" then ts.dropLast else ts

/-- The token that follows the first occurrence of `op`. -/
def token_after (op : String) : List String → Option String
  | [] => none
  | t :: rest => if t = op then rest.head? else token_after op rest

/-- Some redirection operator is the last token of the list or is immediately
followed by another redirection operator. -/
def bad_target (toks : List String) : Prop :=
  ∃ k, k < toks.length ∧ is_redirection_sym (toks.getD k "") = true ∧
    (k + 1 = toks.length ∨ is_redirection_sym (toks.getD (k + 1) "") = true)

instance (toks : List String) : Decidable (bad_target toks) := by
  unfold bad_target
  infer_instance

/-- A malformed, missing or duplicate redirection: a bad target, "<" more
than once, or ">" and ">>" together more than once. -/
def malformed (toks : List String) : Prop :=
  bad_target toks ∨ 2 ≤ toks.count "<" ∨ 2 ≤ toks.count ">" + toks.count ">>"

instance (toks : List String) : Decidable (malformed toks) := by
  unfold malformed
  infer_instance

end Psh


namespace Psh

/-! ## Sample command lines -/

/-- The line of the redirection scenario. -/
def echo_line : List Char := "/bin/echo hi > out.txt".data

/-- The globals after `parse` has run on `echo_line`. -/
def echo_parsed : Parsed :=
  { tokens := ["/bin/echo", "hi"], token_num := 2,
    argv := [some "echo", some "hi"] ++ List.replicate 510 none,
    input_redirect_code := 0, output_redirect_code := 1,
    input_file := none, output_file := some "out.txt", bg_process_flag := 0 }

/-- The line of the background scenario. -/
def sleep_line : List Char := "sleep 5 &".data

/-- The globals after `parse` has run on `sleep_line`. -/
def sleep_parsed : Parsed :=
  { tokens := ["sleep", "5"], token_num := 2,
    argv := [some "sleep", some "5"] ++ List.replicate 510 none,
    input_redirect_code := 0, output_redirect_code := 0,
    input_file := none, output_file := none, bg_process_flag := 1 }

/-- The line of the fg built-in for job 1. -/
def fg_line : List Char := "fg %1".data

/-- The globals after `parse` has run on `fg_line`. -/
def fg_parsed : Parsed :=
  { tokens := ["fg", "%1"], token_num := 2,
    argv := [some "fg", some "%1"] ++ List.replicate 510 none,
    input_redirect_code := 0, output_redirect_code := 0,
    input_file := none, output_file := none, bg_process_flag := 0 }

/-- The line of the fg scenario for a job id that is not in the table. -/
def fg99_line : List Char := "fg %99".data

/-- The globals after `parse` has run on `fg99_line`. -/
def fg99_parsed : Parsed :=
  { tokens := ["fg", "%99"], token_num := 2,
    argv := [some "fg", some "%99"] ++ List.replicate 510 none,
    input_redirect_code := 0, output_redirect_code := 0,
    input_file := none, output_file := none, bg_process_flag := 0 }

/-- The same request through the bg built-in. -/
def bg99_line : List Char := "bg %99".data

/-- The globals after `parse` has run on `bg99_line`. -/
def bg99_parsed : Parsed :=
  { tokens := ["bg", "%99"], token_num := 2,
    argv := [some "bg", some "%99"] ++ List.replicate 510 none,
    input_redirect_code := 0, output_redirect_code := 0,
    input_file := none, output_file := none, bg_process_flag := 0 }

/-- A line that is the background marker alone. -/
def amp_line : List Char := "&\n".data

/-- The globals after `parse` has run on `amp_line`: no command token is
left and `argv` is untouched. -/
def amp_parsed : Parsed :=
  { tokens := [], token_num := 0, argv := List.replicate 512 none,
    input_redirect_code := 0, output_redirect_code := 0,
    input_file := none, output_file := none, bg_process_flag := 1 }

/-- A line that is an output redirection alone. -/
def redirect_only_line : List Char := "> out.txt\n".data

/-- The globals after `parse` has run on `redirect_only_line`. -/
def redirect_only_parsed : Parsed :=
  { tokens := [], token_num := 0, argv := List.replicate 512 none,
    input_redirect_code := 0, output_redirect_code := 1,
    input_file := none, output_file := some "out.txt", bg_process_flag := 0 }

/-- A line with both redirections and a background marker. -/
def sort_line : List Char := "sort < in.txt >> out.txt &".data

/-- The globals after `parse` has run on `sort_line`. -/
def sort_parsed : Parsed :=
  { tokens := ["sort"], token_num := 1,
    argv := [some "sort"] ++ List.replicate 511 none,
    input_redirect_code := 1, output_redirect_code := 2,
    input_file := some "in.txt", output_file := some "out.txt", bg_process_flag := 1 }

end Psh

namespace Psh

/-! ## The job list (`jobs.h`)

`sh.c` includes `jobs.h` and calls its functions; their bodies are not part of
the source file.  They are modelled below from the specification of the job
table. -/

/-- The two job states of `jobs.h`. -/
inductive process_state_t where
  | RUNNING
  | STOPPED
  deriving DecidableEq, Repr

/-- One job record: job id, process group id, state and command name. -/
structure job_element where
  jid : Int
  pid : Int
  state : process_state_t
  command : String
  deriving DecidableEq, Repr

/-- Modelled from the spec: the job table `job_list_t` of `jobs.h`, "a bounded
collection of job records keyed by job-id and process-group-id".  The bound is
not stated, so it is a field fixed when the table is created. -/
structure job_list_t where
  jobs : List job_element
  capacity : Nat
  deriving DecidableEq, Repr

/-- Modelled from the spec: `init_job_list`, an empty table. -/
def init_job_list (capacity : Nat) : job_list_t :=
  { jobs := [], capacity := capacity }

/-- Modelled from the spec: `add_job`, which "fails if the table is at capacity
or if pgid already has a live entry" and otherwise inserts a new job.  `none`
is the negative return value. -/
def add_job (jl : job_list_t) (jid : Int) (pid : Int) (state : process_state_t)
    (command : String) : Option job_list_t :=
  if jl.capacity ≤ jl.jobs.length then none
  else if jl.jobs.any (fun j => decide (j.pid = pid)) then none
  else
    let job : job_element := { jid := jid, pid := pid, state := state, command := command }
    some { jl with jobs := jl.jobs ++ [job] }

/-- Modelled from the spec: `remove_job_pid`, which "fails with NotFound if no
job has that pgid" and otherwise drops the record. -/
def remove_job_pid (jl : job_list_t) (pid : Int) : Option job_list_t :=
  if jl.jobs.any (fun j => decide (j.pid = pid)) then
    some { jl with jobs := jl.jobs.filter (fun j => decide (j.pid ≠ pid)) }
  else none

/-- Modelled from the spec: `update_job_pid`, which "fails with NotFound if
absent; otherwise overwrites state in place". -/
def update_job_pid (jl : job_list_t) (pid : Int) (state : process_state_t) :
    Option job_list_t :=
  if jl.jobs.any (fun j => decide (j.pid = pid)) then
    let set_state := fun (j : job_element) => if j.pid = pid then { j with state := state } else j
    some { jl with jobs := jl.jobs.map set_state }
  else none

/-- Modelled from the spec: `get_job_jid`, the job id of the job with this
pgid; `sh.c` tests the result with `< 0`, and -1 stands for NotFound. -/
def get_job_jid (jl : job_list_t) (pid : Int) : Int :=
  match jl.jobs.find? (fun j => decide (j.pid = pid)) with
  | some j => j.jid
  | none => -1

/-- Modelled from the spec: `get_job_pid`, the pgid of the job with this job
id; -1 stands for NotFound. -/
def get_job_pid (jl : job_list_t) (jid : Int) : Int :=
  match jl.jobs.find? (fun j => decide (j.jid = jid)) with
  | some j => j.pid
  | none => -1

/-- Modelled from the spec: the pgids that a sweep
`while ((pid = get_next_pid(job_list)) > 0)` visits: those of the jobs in the
table when the sweep starts, each once, in table order ("safe iteration while
entries are removed by the caller mid-sweep"); the condition `> 0` ends the
sweep at the first value that is not positive. -/
def sweep_pids (jl : job_list_t) : List Int :=
  (jl.jobs.map (fun j => j.pid)).takeWhile (fun pid => decide (0 < pid))

/-! ## Operating-system view -/

/-- What `waitpid` reports in `status`.  The macros `WIFEXITED`,
`WIFSIGNALED`, `WIFSTOPPED` and `WIFCONTINUED` are mutually exclusive, so a
status is one of four cases; the payload is `WEXITSTATUS`, `WTERMSIG` or
`WSTOPSIG`. -/
inductive wait_status where
  | exited (exit_status : Nat)
  | signaled (signum : Nat)
  | stopped (signum : Nat)
  | continued
  deriving DecidableEq, Repr

/-- System calls of the shell process that change something outside it. -/
inductive SysCall where
  | fork (child_pid : Int)
  | tcsetpgrp (pgrp : Int)
  | waitpid (pid : Int)
  | killpg (pgrp : Int) (sig : String)
  deriving DecidableEq, Repr

/-- The state of the running shell: the globals that persist across
iterations (`job_list`, `next_avail_jid`, `shell_pgid`), the foreground process
group of the terminal, what has been written to stdout and stderr, and the
system calls made so far.  `inserted` is a history variable, not a program
variable: the job ids that `add_job` has accepted, oldest first.
`next_avail_jid` is a C `int`; it is kept as an unbounded integer, which is
exact as long as it stays below 2^31 - 1 (past that, `next_avail_jid++` is
undefined in C). -/
structure Shell where
  job_list : job_list_t
  next_avail_jid : Int
  shell_pgid : Int
  tty_pgrp : Int
  out : List String
  err : List String
  sys : List SysCall
  inserted : List Int
  deriving DecidableEq, Repr

/-- The shell at the start of `main`: `job_list = init_job_list()`,
`next_avail_jid = 1`, `shell_pgid = getpgrp()`. -/
def Shell.init (capacity : Nat) (shell_pgid tty_pgrp : Int) : Shell :=
  { job_list := init_job_list capacity, next_avail_jid := 1, shell_pgid := shell_pgid,
    tty_pgrp := tty_pgrp, out := [], err := [], sys := [], inserted := [] }

/-- Write to stdout (a `printf` that succeeded). -/
def Shell.print (s : Shell) (line : String) : Shell :=
  { s with out := s.out ++ [line] }

/-- Write to stderr (`fprintf(stderr, ...)` or `perror`). -/
def Shell.eprint (s : Shell) (line : String) : Shell :=
  { s with err := s.err ++ [line] }

/-- Record a system call. -/
def Shell.call (s : Shell) (c : SysCall) : Shell :=
  { s with sys := s.sys ++ [c] }

/-- The call `add_job(job_list, jid, pid, state, command)` on the shell's
table; on success the id is also appended to the history. -/
def shell_add_job (s : Shell) (jid pid : Int) (state : process_state_t)
    (command : String) : Option Shell :=
  match add_job s.job_list jid pid state command with
  | some jl => some { s with job_list := jl, inserted := s.inserted ++ [jid] }
  | none => none

/-! ## Status lines -/

/-- The line `"[%d] (%d)\n"`. -/
def fmt_launched (jid pid : Int) : String :=
  "[" ++ toString jid ++ "] (" ++ toString pid ++ ")\n"

/-- The line `"[%d] (%d) terminated with exit status %d\n"`. -/
def fmt_exited (jid pid : Int) (exit_status : Nat) : String :=
  "[" ++ toString jid ++ "] (" ++ toString pid ++ ") terminated with exit status "
    ++ toString exit_status ++ "\n"

/-- The line `"[%d] (%d) terminated by signal %d\n"`. -/
def fmt_signaled (jid pid : Int) (signum : Nat) : String :=
  "[" ++ toString jid ++ "] (" ++ toString pid ++ ") terminated by signal "
    ++ toString signum ++ "\n"

/-- The line `"[%d] (%d) suspended by signal %d\n"`. -/
def fmt_suspended (jid pid : Int) (signum : Nat) : String :=
  "[" ++ toString jid ++ "] (" ++ toString pid ++ ") suspended by signal "
    ++ toString signum ++ "\n"

/-- The line `"[%d] (%d) resumed\n"`. -/
def fmt_resumed (jid pid : Int) : String :=
  "[" ++ toString jid ++ "] (" ++ toString pid ++ ") resumed\n"

/-! ## `handle_fg_process` -/

/-- The body of `handle_fg_process` between the two `tcsetpgrp` calls, after
`waitpid` has stored `fg_status`.  `.error s` is an early `return -1` in state
`s`; `.ok s` falls through to the code that hands the terminal back.
`printf_ok` says whether the `printf` of the status line succeeds. -/
def fg_classify (s : Shell) (child_pid : Int) (command : Option String)
    (fg_status : wait_status) (printf_ok : Bool) : Except Shell Shell :=
  match command with
  | none =>
    -- job is already on the job list (called by the fg built-in)
    let fg_jid := get_job_jid s.job_list child_pid
    if fg_jid < 0 then .error (s.eprint "Error getting jid") else
    match fg_status with
    | .exited _ =>
      match remove_job_pid s.job_list child_pid with
      | some jl => .ok { s with job_list := jl }
      | none => .ok (s.eprint "Error removing job")
    | .signaled signum =>
      if !printf_ok then .error (s.eprint "Error printing") else
      let s := s.print (fmt_signaled fg_jid child_pid signum)
      match remove_job_pid s.job_list child_pid with
      | some jl => .ok { s with job_list := jl }
      | none => .error (s.eprint "Error removing job")
    | .stopped signum =>
      if !printf_ok then .error (s.eprint "Error printing") else
      let s := s.print (fmt_suspended fg_jid child_pid signum)
      match update_job_pid s.job_list child_pid .STOPPED with
      | some jl => .ok { s with job_list := jl }
      | none => .error (s.eprint "Error updating job state")
    | .continued => .ok s
  | some command =>
    -- job is being run for the first time
    match fg_status with
    | .exited _ => .ok s
    | .signaled signum =>
      if !printf_ok then .error (s.eprint "Error printing") else
      .ok (s.print (fmt_signaled s.next_avail_jid child_pid signum))
    | .stopped signum =>
      if !printf_ok then .error (s.eprint "Error printing") else
      let s := s.print (fmt_suspended s.next_avail_jid child_pid signum)
      match shell_add_job s s.next_avail_jid child_pid .STOPPED command with
      | some s2 => .ok { s2 with next_avail_jid := s2.next_avail_jid + 1 }
      | none => .error (s.eprint "Error adding job")
    | .continued => .ok s

/-- The state in which `fg_classify` ends, by either exit. -/
def fg_end (r : Except Shell Shell) : Shell :=
  match r with
  | .ok s => s
  | .error s => s

/-- The function `handle_fg_process(child_pid, command)`; `command = none` is
the NULL of the fg built-in.  `tc_give` and `tc_back` say whether the first
and the last `tcsetpgrp` succeed, `fg_status` is what `waitpid(child_pid,
&fg_status, WUNTRACED)` stores.  Returns the `int` result and the new state. -/
def handle_fg_process (s : Shell) (child_pid : Int) (command : Option String)
    (tc_give : Bool) (fg_status : wait_status) (printf_ok : Bool) (tc_back : Bool) :
    Int × Shell :=
  if !tc_give then (-1, s.eprint "tcsetpgrp") else
  let s := { (s.call (.tcsetpgrp child_pid)) with tty_pgrp := child_pid }
  let s := s.call (.waitpid child_pid)
  match fg_classify s child_pid command fg_status printf_ok with
  | .error s => (-1, s)
  | .ok s =>
    if !tc_back then (-1, s.eprint "tcsetpgrp") else
    (0, { (s.call (.tcsetpgrp s.shell_pgid)) with tty_pgrp := s.shell_pgid })

/-! ## `reap_jobs` -/

/-- A `printf` whose failure is only reported: `if (printf(...) < 0)
fprintf(stderr, msg);`. -/
def try_print (s : Shell) (printf_ok : Bool) (line msg : String) : Shell :=
  if printf_ok then s.print line else s.eprint msg

/-- A removal whose failure is only reported:
`if (remove_job_pid(job_list, pid) < 0) fprintf(stderr, msg);`. -/
def try_remove (s : Shell) (pid : Int) (msg : String) : Shell :=
  match remove_job_pid s.job_list pid with
  | some jl => { s with job_list := jl }
  | none => s.eprint msg

/-- A state update whose failure is only reported:
`if (update_job_pid(job_list, pid, state) < 0) fprintf(stderr, msg);`. -/
def try_update (s : Shell) (pid : Int) (state : process_state_t) (msg : String) : Shell :=
  match update_job_pid s.job_list pid state with
  | some jl => { s with job_list := jl }
  | none => s.eprint msg

/-- The body of the loop of `reap_jobs` for one `current_pid`.  `status` is
`none` when `waitpid(current_pid, &status, WNOHANG | WUNTRACED | WCONTINUED)`
does not return a positive value (no state change, or an error), and the
stored status otherwise. -/
def reap_visit (s : Shell) (current_pid : Int) (status : Option wait_status)
    (printf_ok : Bool) : Shell :=
  let current_jid := get_job_jid s.job_list current_pid
  let s := if current_jid < 0 then s.eprint "Error getting job jid" else s
  match status with
  | none => s
  | some (.exited exit_status) =>
    let s := try_print s printf_ok (fmt_exited current_jid current_pid exit_status)
      "Error printing"
    try_remove s current_pid "Error removing job"
  | some (.signaled signum) =>
    let s := try_print s printf_ok (fmt_signaled current_jid current_pid signum)
      "Error printing"
    try_remove s current_pid "Error removing job"
  | some (.stopped signum) =>
    let s := try_update s current_pid .STOPPED "Error updating job state"
    try_print s printf_ok (fmt_suspended current_jid current_pid signum) "Error printing"
  | some .continued =>
    let s := try_update s current_pid .RUNNING "Error updating job state"
    try_print s printf_ok (fmt_resumed current_jid current_pid) "Error printing"

/-- The function `reap_jobs`: one visit for every pgid of the sweep.
`status pid` and `printf_ok pid` say how `waitpid` and `printf` turn out for
that job. -/
def reap_jobs (s : Shell) (status : Int → Option wait_status)
    (printf_ok : Int → Bool) : Shell :=
  (sweep_pids s.job_list).foldl
    (fun s pid => reap_visit s pid (status pid) (printf_ok pid)) s

end Psh

namespace Psh

/-! ## The loop of `main` -/

/-- How the system calls of one iteration of the loop of `main` turn out. -/
structure Env where
  /-- the four `signal(..., SIG_IGN)` calls succeed -/
  signal_ok : Bool
  /-- what `waitpid(pid, &status, WNOHANG | ...)` reports in `reap_jobs` -/
  reap_status : Int → Option wait_status
  /-- whether `printf` succeeds in `reap_jobs` -/
  reap_printf_ok : Int → Bool
  /-- what `read` returns: `none` is -1, otherwise the bytes read -/
  read_result : Option (List Char)
  /-- whether `chdir`, `link`, `unlink` succeed -/
  file_call_ok : Bool
  /-- whether `killpg` succeeds -/
  killpg_ok : Bool
  /-- the value `fork` returns -/
  child_pid : Int
  /-- whether `printf` succeeds in `main` and in `handle_fg_process` -/
  printf_ok : Bool
  /-- whether the first `tcsetpgrp` of `handle_fg_process` succeeds -/
  tc_give : Bool
  /-- the status stored by the blocking `waitpid` -/
  fg_status : wait_status
  /-- whether the last `tcsetpgrp` of `handle_fg_process` succeeds -/
  tc_back : Bool

/-- How one iteration of the loop of `main` ends. -/
inductive Outcome where
  /-- the loop goes on to its next iteration -/
  | next (s : Shell)
  /-- the shell process ends through `exit(code)` or `return code` -/
  | exit (code : Nat) (s : Shell)
  /-- this process is the child that `fork` created: `exec_child` replaces it
  by the program through `execv(path, argv)` or ends it with `exit(1)` -/
  | child (path : Option String) (argv : List (Option String))
  /-- an access for which C defines no behaviour -/
  | undefined
  deriving DecidableEq, Repr

/-- The C library function `isspace`. -/
def isspace (c : Char) : Bool :=
  c = ' ' || c = '\t' || c = '\n' || c = Char.ofNat 11 || c = Char.ofNat 12 || c = '\r'

/-- The value of a run of leading decimal digits, continuing from `acc`. -/
def atoi_digits : List Char → Int → Int
  | [], acc => acc
  | c :: cs, acc => if c.isDigit then atoi_digits cs (acc * 10 + (c.toNat - 48 : Nat)) else acc

/-- The number that the text handed to `atoi` denotes: optional white space,
an optional sign, then decimal digits; 0 when there are none. -/
def atoi_value (str : List Char) : Int :=
  match str.dropWhile isspace with
  | '-' :: cs => - atoi_digits cs 0
  | '+' :: cs => atoi_digits cs 0
  | cs => atoi_digits cs 0

/-- The C library function `atoi`, whose result `main` stores in an `int`:
the number denoted when an `int` can hold it, and `none` otherwise, for which
C defines no behaviour. -/
def atoi (str : List Char) : Option Int :=
  if INT_MIN ≤ atoi_value str ∧ atoi_value str ≤ INT_MAX then some (atoi_value str)
  else none

/-- Modelled from the spec: `jobs(job_list)`, which lists the jobs "ordered by
job_id ascending"; the text of a line is not stated, a line here names id,
pgid, state and command. -/
def jobs_listing (jl : job_list_t) : List String :=
  (jl.jobs.mergeSort (fun a b => decide (a.jid ≤ b.jid))).map (fun j =>
    "[" ++ toString j.jid ++ "] (" ++ toString j.pid ++ ") " ++
      (match j.state with | .RUNNING => "running" | .STOPPED => "suspended") ++
      " " ++ j.command ++ "\n")

/-- The code after the loop of `main`: `killpg(pid, SIGINT)` for every job of a
sweep, then `cleanup_job_list` and `return 0`. -/
def shutdown (s : Shell) (env : Env) : Shell :=
  (sweep_pids s.job_list).foldl
    (fun s pid => if env.killpg_ok then s.call (.killpg pid "SIGINT") else s.eprint "killpg") s

/-- Reaching the end of the loop body, by `continue` or by falling through:
the condition `chars_read != 0` decides between the next iteration and the
code after the loop. -/
def loop_end (s : Shell) (env : Env) (chars_read : Nat) : Outcome :=
  if chars_read = 0 then .exit 0 (shutdown s env) else .next s

/-- The `fg` branch of `main` (lines 601-639).  `int jid_to_resume =
atoi(tokens[1] + 1)` has no defined value when the number does not fit an
`int`. -/
def builtin_fg (s : Shell) (env : Env) (p : Parsed) (chars_read : Nat) : Outcome :=
  if p.token_num = 2 then
    match (p.tokens[1]?).map String.data with
    | some ('%' :: digits) =>
      match atoi digits with
      | none => .undefined
      | some jid_to_resume =>
        let pid_to_resume := get_job_pid s.job_list jid_to_resume
        if pid_to_resume < 0 then loop_end (s.eprint "fg: job not found\n") env chars_read
        else if !env.killpg_ok then loop_end (s.eprint "killpg") env chars_read
        else
          let s := s.call (.killpg pid_to_resume "SIGCONT")
          match update_job_pid s.job_list pid_to_resume .RUNNING with
          | none => loop_end (s.eprint "Error updating job state") env chars_read
          | some jl =>
            let s := { s with job_list := jl }
            match handle_fg_process s pid_to_resume none env.tc_give env.fg_status
                env.printf_ok env.tc_back with
            | (ret, s) =>
              if ret < 0 then loop_end (s.eprint "Error handling fg process") env chars_read
              else loop_end s env chars_read
    | _ => loop_end (s.eprint "fg: job input does not begin with %\n") env chars_read
  else loop_end (s.eprint "fg: syntax error\n") env chars_read

/-- The `bg` branch of `main` (lines 641-675), with the same `atoi` call as
the `fg` branch. -/
def builtin_bg (s : Shell) (env : Env) (p : Parsed) (chars_read : Nat) : Outcome :=
  if p.token_num = 2 then
    match (p.tokens[1]?).map String.data with
    | some ('%' :: digits) =>
      match atoi digits with
      | none => .undefined
      | some jid_to_resume =>
        let pid_to_resume := get_job_pid s.job_list jid_to_resume
        if pid_to_resume < 0 then loop_end (s.eprint "bg: job not found\n") env chars_read
        else if !env.killpg_ok then loop_end (s.eprint "killpg") env chars_read
        else
          let s := s.call (.killpg pid_to_resume "SIGCONT")
          match update_job_pid s.job_list pid_to_resume .RUNNING with
          | none => loop_end (s.eprint "Error updating job state") env chars_read
          | some jl => loop_end { s with job_list := jl } env chars_read
    | _ => loop_end (s.eprint "bg: job input does not begin with %\n") env chars_read
  else loop_end (s.eprint "bg: syntax error\n") env chars_read

/-- The background half of the last branch of `main` (lines 694-705), in the
parent: add the job, print its id and pid, count the id as used. -/
def launch_bg (s : Shell) (env : Env) (command : String) : Shell :=
  let s1 := match shell_add_job s s.next_avail_jid env.child_pid .RUNNING command with
    | some s1 => s1
    | none => s.eprint "Error adding background job"
  let s2 := try_print s1 env.printf_ok (fmt_launched s1.next_avail_jid env.child_pid)
    "Error printing job id and pid of background process"
  { s2 with next_avail_jid := s2.next_avail_jid + 1 }

/-- The last branch of `main` (lines 686-714): `fork`, `exec_child` in the
child, and in the parent either the background bookkeeping or
`handle_fg_process`. -/
def launch (s : Shell) (env : Env) (p : Parsed) (command : String) (chars_read : Nat) :
    Outcome :=
  if env.child_pid = 0 then .child (execv_args p).1 (execv_args p).2 else
  let s := s.call (.fork env.child_pid)
  if p.bg_process_flag ≠ 0 then loop_end (launch_bg s env command) env chars_read
  else
    match handle_fg_process s env.child_pid (some command) env.tc_give env.fg_status
        env.printf_ok env.tc_back with
    | (ret, s) =>
      if ret < 0 then .exit 1 (s.eprint "Error handling foreground process")
      else loop_end s env chars_read

/-- A built-in that is one file-system call on `argc - 1` arguments (`cd`,
`ln`, `rm`). -/
def builtin_file (s : Shell) (env : Env) (p : Parsed) (argc : Nat) (call name : String)
    (chars_read : Nat) : Outcome :=
  if p.token_num = argc then
    if !env.file_call_ok then loop_end (s.eprint call) env chars_read
    else loop_end s env chars_read
  else loop_end (s.eprint (name ++ ": syntax error\n")) env chars_read

/-- The dispatch on `tokens[0]` in `main` (lines 558-714). -/
def dispatch (s : Shell) (env : Env) (p : Parsed) (command : String) (chars_read : Nat) :
    Outcome :=
  if command = "exit" then .exit 0 s
  else if command = "cd" then builtin_file s env p 2 "chdir" "cd" chars_read
  else if command = "ln" then builtin_file s env p 3 "link" "ln" chars_read
  else if command = "rm" then builtin_file s env p 2 "unlink" "rm" chars_read
  else if command = "fg" then builtin_fg s env p chars_read
  else if command = "bg" then builtin_bg s env p chars_read
  else if command = "jobs" then
    if p.token_num = 1 then
      loop_end { s with out := s.out ++ jobs_listing s.job_list } env chars_read
    else loop_end (s.eprint "jobs: syntax error\n") env chars_read
  else launch s env p command chars_read

/-- One iteration of the `do { ... } while (chars_read != 0)` loop of `main`
(built without `PROMPT`).  When `main` tests
`strlen(buffer) == strspn(buffer, " \t\n")`, `strtok` has cut the buffer after
its first token, so the test holds exactly when the line has no token, that
is when every byte of the C string is a delimiter.  Otherwise `tokens[0]` is
read; with `token_num = 0` that entry is NULL or a pointer whose low bytes
`memset(tokens, 0, token_num)` has zeroed, so the read is undefined. -/
def main_iteration (s : Shell) (env : Env) : Outcome :=
  if !env.signal_ok then .exit 1 (s.eprint "signal") else
  let s := reap_jobs s env.reap_status env.reap_printf_ok
  match env.read_result with
  | none => .exit 1 (s.eprint "read")
  | some buffer =>
    -- buffer[chars_read] = '\0'
    if BUFFER_SIZE ≤ buffer.length then .undefined else
    match parse buffer with
    | .error .out_of_bounds => .undefined
    | .error (.bad_line msg) => loop_end (s.eprint msg) env buffer.length
    | .ok p =>
      if (c_str buffer).all is_delim then loop_end s env buffer.length
      else
        match p.tokens[0]? with
        | none => .undefined
        | some command => dispatch s env p command buffer.length

/-- The states the shell can be in at the start of an iteration of the loop of
`main`, whatever the system calls return.  An iteration that would push
`next_avail_jid` past `INT_MAX` overflows a signed `int`, for which C defines
no behaviour, and is not a step. -/
inductive Reach : Shell → Prop where
  | start (capacity : Nat) (shell_pgid tty_pgrp : Int) :
      Reach (Shell.init capacity shell_pgid tty_pgrp)
  | step (s s2 : Shell) (env : Env) :
      Reach s → main_iteration s env = .next s2 → s2.next_avail_jid ≤ INT_MAX → Reach s2

end Psh

namespace Psh

/-! ## Sample shell states and environments -/

/-- A shell whose job table holds one running job and is full. -/
def full_shell : Shell :=
  { job_list := { jobs := [{ jid := 1, pid := 100, state := .RUNNING, command := "/bin/sleep" }],
                  capacity := 1 },
    next_avail_jid := 2, shell_pgid := 10, tty_pgrp := 10,
    out := [], err := [], sys := [], inserted := [1] }

/-- A shell with room in its job table and one stopped job. -/
def roomy_shell : Shell :=
  { job_list := { jobs := [{ jid := 1, pid := 100, state := .STOPPED, command := "/bin/sleep" }],
                  capacity := 8 },
    next_avail_jid := 2, shell_pgid := 10, tty_pgrp := 10,
    out := [], err := [], sys := [], inserted := [1] }

/-- An iteration that reads `echo_line`, in which `fork` returns 200 and the
first `tcsetpgrp` of `handle_fg_process` fails. -/
def tc_fail_env : Env :=
  { signal_ok := true, reap_status := fun _ => none, reap_printf_ok := fun _ => true,
    read_result := some echo_line, file_call_ok := true, killpg_ok := true,
    child_pid := 200, printf_ok := true, tc_give := false,
    fg_status := .exited 0, tc_back := true }

/-- The shell after `sleep 5 &` has been launched as process 100 from a fresh
shell with room for 8 jobs. -/
def bg_shell : Shell :=
  { job_list := { jobs := [{ jid := 1, pid := 100, state := .RUNNING, command := "sleep" }],
                  capacity := 8 },
    next_avail_jid := 2, shell_pgid := 10, tty_pgrp := 10,
    out := ["[1] (100)\n"], err := [], sys := [.fork 100], inserted := [1] }

/-- An iteration in which every system call succeeds, no job has changed
state, `read` returns `buffer`, `fork` returns `child_pid` and the blocking
`waitpid` reports `fg_status`. -/
def calm_env (buffer : List Char) (child_pid : Int) (fg_status : wait_status) : Env :=
  { signal_ok := true, reap_status := fun _ => none, reap_printf_ok := fun _ => true,
    read_result := some buffer, file_call_ok := true, killpg_ok := true,
    child_pid := child_pid, printf_ok := true, tc_give := true,
    fg_status := fg_status, tc_back := true }

end Psh

namespace Psh

/-! ## The job-id invariant -/

/-- The job ids in the table are pairwise distinct and smaller than
`next_avail_jid`; the ids accepted by `add_job` so far are strictly increasing
in the order of insertion and smaller than `next_avail_jid`; every id in the
table is one of them. -/
def JidInv (s : Shell) : Prop :=
  (s.job_list.jobs.map (fun j => j.jid)).Nodup
  ∧ (∀ j ∈ s.job_list.jobs, j.jid < s.next_avail_jid)
  ∧ s.inserted.Pairwise (fun a b => a < b)
  ∧ (∀ x ∈ s.inserted, x < s.next_avail_jid)
  ∧ (∀ j ∈ s.job_list.jobs, j.jid ∈ s.inserted)

/-- The step from `s` to `s2` keeps the job-id invariant, does not lower
`next_avail_jid`, and only appends to the history of inserted ids. -/
def JidStep (s s2 : Shell) : Prop :=
  (JidInv s → JidInv s2) ∧ s.next_avail_jid ≤ s2.next_avail_jid
  ∧ ∃ more, s2.inserted = s.inserted ++ more

end Psh

namespace Psh

/-! ## Facts about the parser -/

theorem is_redirection_sym_iff (t : String) :
    is_redirection_sym t = true ↔ t = "<" ∨ t = ">" ∨ t = ">>" := by
  unfold is_redirection_sym
  by_cases h1 : t = "<" <;> by_cases h2 : t = ">" <;> by_cases h3 : t = ">>" <;> simp [h1, h2, h3]

theorem strip_redirections_cons_plain (t : String) (l : List String)
    (h : is_redirection_sym t = false) :
    strip_redirections (t :: l) = t :: strip_redirections l := by
  cases l with
  | nil => simp [strip_redirections, h]
  | cons u r => simp [strip_redirections, h]

theorem strip_redirections_cons_op (t u : String) (l : List String)
    (h : is_redirection_sym t = true) :
    strip_redirections (t :: u :: l) = strip_redirections l := by
  simp [strip_redirections, h]

/-- What a successful run of the redirection loop leaves behind, for any
entry state. -/
theorem redirect_loop_ok (i : Nat) (l : List String) (st st2 : LoopState)
    (h : redirect_loop i l st = .ok st2) :
    st2.tokens_final = st.tokens_final ++ strip_redirections l
    ∧ (st.input_redirected = true → "<" ∉ l)
    ∧ (st.output_redirected = true → ">" ∉ l ∧ ">>" ∉ l)
    ∧ ("<" ∈ l → st2.input_redirect_code = 1 ∧
        ∃ path, token_after "<" l = some path ∧ st2.input_file = some path)
    ∧ ("<" ∉ l → st2.input_redirect_code = st.input_redirect_code ∧
        st2.input_file = st.input_file)
    ∧ (">" ∈ l → ">>" ∉ l ∧ st2.output_redirect_code = 1 ∧
        ∃ path, token_after ">" l = some path ∧ st2.output_file = some path)
    ∧ (">>" ∈ l → ">" ∉ l ∧ st2.output_redirect_code = 2 ∧
        ∃ path, token_after ">>" l = some path ∧ st2.output_file = some path)
    ∧ (">" ∉ l → ">>" ∉ l → st2.output_redirect_code = st.output_redirect_code ∧
        st2.output_file = st.output_file) := by
  induction i, l, st using redirect_loop.induct generalizing st2 with
  | case1 i st =>
    simp [redirect_loop] at h
    subst h
    simp [strip_redirections]
  | case5 i st hi nxt rest2 hn hr ih =>
    rw [redirect_loop.eq_def] at h
    simp only [hi, hn, hr] at h
    simp at h
    have hn2 := (is_redirection_sym_iff nxt).not.mp hn
    simp only [not_or] at hn2
    obtain ⟨n1, n2, n3⟩ := hn2
    have := ih st2 h
    simp at this hr
    obtain ⟨a1, a2, a3, a4, a5, a6, a7, a8⟩ := this
    simp [strip_redirections, is_redirection_sym, token_after, a1, hr, n1, n2, n3,
      Ne.symm n1, Ne.symm n2, Ne.symm n3]
    simp_all
  | case10 i st hi nxt rest2 hn hr h1 ih =>
    rw [redirect_loop.eq_def] at h
    simp only [hi, hn, hr] at h
    simp at h
    have hn2 := (is_redirection_sym_iff nxt).not.mp hn
    simp only [not_or] at hn2
    obtain ⟨n1, n2, n3⟩ := hn2
    have := ih st2 h
    simp at this hr
    obtain ⟨a1, a2, a3, a4, a5, a6, a7, a8⟩ := this
    simp [strip_redirections, is_redirection_sym, token_after, a1, hr, n1, n2, n3,
      Ne.symm n1, Ne.symm n2, Ne.symm n3]
    simp_all
  | case15 i st hi nxt rest2 hn hr h1 h2 ih =>
    rw [redirect_loop.eq_def] at h
    simp only [hi, hn, hr] at h
    simp at h
    have hn2 := (is_redirection_sym_iff nxt).not.mp hn
    simp only [not_or] at hn2
    obtain ⟨n1, n2, n3⟩ := hn2
    have := ih st2 h
    simp at this hr
    obtain ⟨a1, a2, a3, a4, a5, a6, a7, a8⟩ := this
    simp [strip_redirections, is_redirection_sym, token_after, a1, hr, n1, n2, n3,
      Ne.symm n1, Ne.symm n2, Ne.symm n3]
    simp_all
  | case17 i t rest st h1 h2 h3 ih =>
    rw [redirect_loop.eq_def] at h
    simp only [h1, h2, h3] at h
    simp at h
    have hp : is_redirection_sym t = false := by
      rw [Bool.eq_false_iff, ne_eq, is_redirection_sym_iff]; simp [h1, h2, h3]
    have := ih st2 h
    simp at this
    obtain ⟨a1, a2, a3, a4, a5, a6, a7, a8⟩ := this
    simp [strip_redirections_cons_plain t rest hp, token_after, a1, h1, h2, h3,
      Ne.symm h1, Ne.symm h2, Ne.symm h3]
    simp_all
  | _ =>
    rw [redirect_loop.eq_def] at h
    simp [*] at h

/-- The "&" step computes `strip_amp`, keeps `token_num` equal to the number
of tokens, and sets the flag exactly when the last token is "&". -/
theorem bg_step_eq (l : List String) :
    bg_step l l.length =
      (strip_amp l, (strip_amp l).length, if l.getLast? = some "&" then 1 else 0) := by
  unfold bg_step strip_amp
  rw [List.getLast?_eq_getElem?, List.dropLast_eq_take]
  by_cases h0 : 0 < l.length
  · by_cases h1 : l[l.length - 1]? = some "&"
    · simp only [h0, h1, if_true, List.length_take]
      have : min (l.length - 1) l.length = l.length - 1 := by omega
      rw [this]
    · simp only [h0, h1, if_true, if_false]
  · have : l = [] := by
      cases l with
      | nil => rfl
      | cons a r => simp at h0
    subst this
    simp

theorem foldl_set_length (ts : List String) (k s : Nat) (argv : List (Option String)) :
    ((List.range' s k).foldl (fun a i => a.set i ts[i]?) argv).length = argv.length := by
  induction k generalizing s argv with
  | zero => simp
  | succ k ih => simp [List.range'_succ, ih]

theorem foldl_set_getElem? (ts : List String) (k s : Nat) (argv : List (Option String))
    (j : Nat) :
    ((List.range' s k).foldl (fun a i => a.set i ts[i]?) argv)[j]? =
      if s ≤ j ∧ j < s + k ∧ j < argv.length then some ts[j]? else argv[j]? := by
  induction k generalizing s argv with
  | zero =>
    have : ¬ (s ≤ j ∧ j < s + 0 ∧ j < argv.length) := by omega
    rw [if_neg this]
    simp
  | succ k ih =>
    rw [List.range'_succ, List.foldl_cons, ih, List.length_set, List.getElem?_set]
    by_cases h1 : s = j
    · subst h1
      by_cases h2 : s < argv.length
      · have : ¬ (s + 1 ≤ s ∧ s < s + 1 + k ∧ s < argv.length) := by omega
        have h3 : (s ≤ s ∧ s < s + (k + 1) ∧ s < argv.length) := by omega
        simp [this, h3, h2]
      · have : ¬ (s + 1 ≤ s ∧ s < s + 1 + k ∧ s < argv.length) := by omega
        have h3 : ¬ (s ≤ s ∧ s < s + (k + 1) ∧ s < argv.length) := by omega
        rw [if_neg this, if_neg h3]
        simp [h2]
        omega
    · by_cases h4 : s + 1 ≤ j ∧ j < s + 1 + k ∧ j < argv.length
      · have h3 : (s ≤ j ∧ j < s + (k + 1) ∧ j < argv.length) := by omega
        rw [if_pos h4, if_pos h3]
      · have h3 : ¬ (s ≤ j ∧ j < s + (k + 1) ∧ j < argv.length) := by omega
        rw [if_neg h4, if_neg h3, if_neg h1]

/-- The contents of `argv` after lines 195-214, entry by entry. -/
theorem argv_step_ok (ts : List String) (h0 : 0 < ts.length) (hn : ts.length < ARGV_SIZE) :
    ∃ argv, argv_step ts ts.length (List.replicate ARGV_SIZE none) = .ok argv
      ∧ argv.length = ARGV_SIZE
      ∧ argv[0]? = some ((ts[0]?).map argv0)
      ∧ (∀ j, 1 ≤ j → j < ts.length → argv[j]? = some ts[j]?)
      ∧ (∀ j, ts.length ≤ j → j < ARGV_SIZE → argv[j]? = some none) := by
  unfold argv_step argv_loop
  have hn2 : ¬ ARGV_SIZE ≤ ts.length := by omega
  simp only [h0, if_true, hn2, if_false]
  refine ⟨_, rfl, ?_, ?_, ?_, ?_⟩
  · simp [foldl_set_length]
  · rw [List.getElem?_set, foldl_set_getElem?]
    have h1 : ¬ ts.length = 0 := by omega
    have h2 : ¬ (1 ≤ 0 ∧ 0 < 1 + (ts.length - 1) ∧
        0 < ((List.replicate ARGV_SIZE (none : Option String)).set 0 ((ts[0]?).map argv0)).length) := by
      omega
    rw [if_neg h1, if_neg h2, List.getElem?_set, List.length_replicate]
    have h3 : 0 < ARGV_SIZE := by decide
    simp only [if_true, h3]
  · intro j hj1 hj2
    rw [List.getElem?_set, foldl_set_getElem?]
    have h1 : ¬ ts.length = j := by omega
    have h2 : (1 ≤ j ∧ j < 1 + (ts.length - 1) ∧
        j < ((List.replicate ARGV_SIZE (none : Option String)).set 0 ((ts[0]?).map argv0)).length) := by
      simp
      omega
    rw [if_neg h1, if_pos h2]
  · intro j hj1 hj2
    rw [List.getElem?_set, foldl_set_getElem?]
    by_cases h1 : ts.length = j
    · simp [h1, foldl_set_length]
      omega
    · have h2 : ¬ (1 ≤ j ∧ j < 1 + (ts.length - 1) ∧
        j < ((List.replicate ARGV_SIZE (none : Option String)).set 0 ((ts[0]?).map argv0)).length) := by
        omega
      rw [if_neg h1, if_neg h2, List.getElem?_set]
      have h3 : ¬ 0 = j := by omega
      rw [if_neg h3, List.getElem?_replicate]
      simp [hj2]

theorem strrchr_none (c : Char) (l : List Char) : strrchr c l = none ↔ c ∉ l := by
  induction l with
  | nil => simp [strrchr]
  | cons x xs ih =>
    unfold strrchr
    cases hr : strrchr c xs with
    | some r =>
      have : c ∈ xs := by
        by_contra hc
        rw [ih.mpr hc] at hr
        cases hr
      simp [this]
    | none =>
      have hc := ih.mp hr
      by_cases hx : x = c
      · simp [hx]
      · simp [hx, hc, Ne.symm hx]

theorem strrchr_some (c : Char) (l r : List Char) (h : strrchr c l = some r) :
    ∃ pre, l = pre ++ c :: r.tail ∧ r = c :: r.tail ∧ c ∉ r.tail := by
  induction l generalizing r with
  | nil => simp [strrchr] at h
  | cons x xs ih =>
    unfold strrchr at h
    cases hr : strrchr c xs with
    | some r2 =>
      rw [hr] at h
      simp at h
      subst h
      obtain ⟨pre, h1, h2, h3⟩ := ih r2 hr
      exact ⟨x :: pre, by rw [List.cons_append, ← h1], h2, h3⟩
    | none =>
      rw [hr] at h
      have hc := (strrchr_none c xs).mp hr
      by_cases hx : x = c
      · simp [hx] at h
        subst h
        exact ⟨[], by simp [hx], by simp, by simpa using hc⟩
      · simp [hx] at h

/-- The string stored in `argv[0]` is the token itself when it has no slash,
and otherwise what follows its last slash. -/
theorem argv0_spec (t : String) :
    ('/' ∉ t.data → argv0 t = t) ∧
    ('/' ∈ t.data → ∃ pre, t.data = pre ++ '/' :: (argv0 t).data ∧ '/' ∉ (argv0 t).data) := by
  unfold argv0
  cases hr : strrchr '/' t.data with
  | none =>
    have := (strrchr_none _ _).mp hr
    simp [this]
  | some r =>
    obtain ⟨pre, h1, h2, h3⟩ := strrchr_some _ _ _ hr
    have hin : '/' ∈ t.data := by
      by_contra hc
      rw [(strrchr_none _ _).mpr hc] at hr
      cases hr
    simp only [hin, not_true_eq_false, false_implies, true_implies, true_and]
    exact ⟨pre, h1, h3⟩

/-- The stages of a successful `parse_tokens`. -/
theorem parse_tokens_ok (toks : List String) (p : Parsed) (h : parse_tokens toks = .ok p) :
    ∃ st argv, redirect_loop 0 toks LoopState.init = .ok st
      ∧ argv_step (strip_amp st.tokens_final) (strip_amp st.tokens_final).length
          (List.replicate ARGV_SIZE none) = .ok argv
      ∧ p.tokens = strip_amp st.tokens_final
      ∧ p.token_num = (strip_amp st.tokens_final).length
      ∧ p.argv = argv
      ∧ p.bg_process_flag = (if st.tokens_final.getLast? = some "&" then 1 else 0)
      ∧ p.input_redirect_code = st.input_redirect_code
      ∧ p.output_redirect_code = st.output_redirect_code
      ∧ p.input_file = st.input_file
      ∧ p.output_file = st.output_file := by
  unfold parse_tokens at h
  split at h
  · cases h
  · split at h
    · cases h
    · rename_i st hst
      rw [bg_step_eq] at h
      simp only at h
      split at h
      · cases h
      · rename_i argv hargv
        injection h with h
        subst h
        exact ⟨st, argv, hst, hargv, rfl, rfl, rfl, rfl, rfl, rfl, rfl, rfl⟩

theorem bad_target_nil : ¬ bad_target [] := by
  rintro ⟨k, h, _⟩
  simp at h

theorem bad_target_cons (t : String) (l : List String) :
    bad_target (t :: l) ↔
      (is_redirection_sym t = true ∧
        (l = [] ∨ ∃ u r, l = u :: r ∧ is_redirection_sym u = true)) ∨ bad_target l := by
  constructor
  · rintro ⟨k, hk, hr, hnext⟩
    cases k with
    | zero =>
      left
      refine ⟨by simpa using hr, ?_⟩
      cases l with
      | nil => left; rfl
      | cons u r =>
        right
        rcases hnext with hnext | hnext
        · simp at hnext
        · exact ⟨u, r, rfl, by simpa using hnext⟩
    | succ k =>
      right
      refine ⟨k, by simpa using hk, by simpa using hr, ?_⟩
      rcases hnext with hnext | hnext
      · left
        simp at hnext
        omega
      · right
        simpa using hnext
  · rintro (⟨hr, hl⟩ | ⟨k, hk, hr, hnext⟩)
    · refine ⟨0, by simp, by simpa using hr, ?_⟩
      rcases hl with rfl | ⟨u, r, rfl, hu⟩
      · left; simp
      · right; simpa using hu
    · refine ⟨k + 1, by simpa using hk, by simpa using hr, ?_⟩
      rcases hnext with hnext | hnext
      · left
        simp
        omega
      · right
        simpa using hnext

/-- When the redirection loop rejects the rest of a line that fits the token
array, for any entry state. -/
theorem redirect_loop_err (i : Nat) (l : List String) (st : LoopState) :
    i + l.length < TOKENS_SIZE →
    (redirect_loop i l st ≠ .error .out_of_bounds) ∧
    ((∃ msg, redirect_loop i l st = .error (.bad_line msg)) ↔
      (bad_target l
        ∨ 2 ≤ l.count "<" + (if st.input_redirected then 1 else 0)
        ∨ 2 ≤ l.count ">" + l.count ">>" + (if st.output_redirected then 1 else 0))) := by
  induction i, l, st using redirect_loop.induct with
  | case1 i st =>
    intro _
    rw [redirect_loop.eq_def]
    have := bad_target_nil
    simp [this]
    constructor <;> split <;> omega
  | case2 i rest st hi =>
    intro hb
    simp at hb
    omega
  | case3 i st hi =>
    intro hb
    rw [redirect_loop.eq_def]
    simp [*]
    exact Or.inl ((bad_target_cons _ _).mpr (Or.inl ⟨by decide, Or.inl rfl⟩))
  | case4 i st hi nxt rest2 hn =>
    intro hb
    rw [redirect_loop.eq_def]
    simp [*]
    exact Or.inl ((bad_target_cons _ _).mpr (Or.inl ⟨by decide, Or.inr ⟨_, _, rfl, hn⟩⟩))
  | case5 i st hi nxt rest2 hn hr ih =>
    intro hb
    have hb2 : i + 2 + rest2.length < TOKENS_SIZE := by simp at hb; omega
    have hn2 := (is_redirection_sym_iff nxt).not.mp hn
    simp only [not_or] at hn2
    obtain ⟨n1, n2, n3⟩ := hn2
    obtain ⟨ih1, ih2⟩ := ih hb2
    rw [redirect_loop.eq_def]
    simp only [hi, hn, hr]
    simp at hr ih2
    simp only [if_true, if_false, bad_target_cons, hn]
    simp [ih1, hr, is_redirection_sym, List.count_cons, n1, n2, n3]
    rw [ih2]
  | case6 i st hi nxt rest2 hn hr =>
    intro hb
    rw [redirect_loop.eq_def]
    simp [*]
    simp at hr
    right
    left
    simp [hr]
  | case7 i rest st hi h1 =>
    intro hb
    simp at hb
    omega
  | case8 i st hi h1 =>
    intro hb
    rw [redirect_loop.eq_def]
    simp [*]
    exact Or.inl ((bad_target_cons _ _).mpr (Or.inl ⟨by decide, Or.inl rfl⟩))
  | case9 i st hi nxt rest2 hn h1 =>
    intro hb
    rw [redirect_loop.eq_def]
    simp [*]
    exact Or.inl ((bad_target_cons _ _).mpr (Or.inl ⟨by decide, Or.inr ⟨_, _, rfl, hn⟩⟩))
  | case10 i st hi nxt rest2 hn hr h1 ih =>
    intro hb
    have hb2 : i + 2 + rest2.length < TOKENS_SIZE := by simp at hb; omega
    have hn2 := (is_redirection_sym_iff nxt).not.mp hn
    simp only [not_or] at hn2
    obtain ⟨n1, n2, n3⟩ := hn2
    obtain ⟨ih1, ih2⟩ := ih hb2
    rw [redirect_loop.eq_def]
    simp only [hi, hn, hr]
    simp at hr ih2
    simp only [if_true, if_false, bad_target_cons, hn]
    simp [ih1, hr, is_redirection_sym, List.count_cons, n1, n2, n3]
    rw [ih2]
    first | done | exact or_congr Iff.rfl (or_congr Iff.rfl (by omega))
  | case11 i st hi nxt rest2 hn hr h1 =>
    intro hb
    rw [redirect_loop.eq_def]
    simp [*]
    simp at hr
    right
    right
    simp [hr]
    omega
  | case12 i rest st hi h1 h2 =>
    intro hb
    simp at hb
    omega
  | case13 i st hi h1 h2 =>
    intro hb
    rw [redirect_loop.eq_def]
    simp [*]
    exact Or.inl ((bad_target_cons _ _).mpr (Or.inl ⟨by decide, Or.inl rfl⟩))
  | case14 i st hi nxt rest2 hn h1 h2 =>
    intro hb
    rw [redirect_loop.eq_def]
    simp [*]
    exact Or.inl ((bad_target_cons _ _).mpr (Or.inl ⟨by decide, Or.inr ⟨_, _, rfl, hn⟩⟩))
  | case15 i st hi nxt rest2 hn hr h1 h2 ih =>
    intro hb
    have hb2 : i + 2 + rest2.length < TOKENS_SIZE := by simp at hb; omega
    have hn2 := (is_redirection_sym_iff nxt).not.mp hn
    simp only [not_or] at hn2
    obtain ⟨n1, n2, n3⟩ := hn2
    obtain ⟨ih1, ih2⟩ := ih hb2
    rw [redirect_loop.eq_def]
    simp only [hi, hn, hr]
    simp at hr ih2
    simp only [if_true, if_false, bad_target_cons, hn]
    simp [ih1, hr, is_redirection_sym, List.count_cons, n1, n2, n3]
    rw [ih2]
    first | done | exact or_congr Iff.rfl (or_congr Iff.rfl (by omega))
  | case16 i st hi nxt rest2 hn hr h1 h2 =>
    intro hb
    rw [redirect_loop.eq_def]
    simp [*]
    simp at hr
    right
    right
    simp [hr]
    omega
  | case17 i t rest st h1 h2 h3 ih =>
    intro hb
    have hb2 : i + 1 + rest.length < TOKENS_SIZE := by simp at hb; omega
    have hp : ¬ is_redirection_sym t = true := by
      rw [is_redirection_sym_iff]; simp [h1, h2, h3]
    obtain ⟨ih1, ih2⟩ := ih hb2
    rw [redirect_loop.eq_def]
    simp only [h1, h2, h3]
    simp at ih2
    simp only [if_true, if_false, bad_target_cons, hp]
    simp [ih1, List.count_cons, h1, h2, h3]
    rw [ih2]

theorem strip_redirections_length_le (l : List String) :
    (strip_redirections l).length ≤ l.length := by
  induction l using strip_redirections.induct with
  | case1 => simp [strip_redirections]
  | case2 t h => simp [strip_redirections, h]
  | case3 t h => simp [strip_redirections, h]
  | case4 t u rest h ih =>
    simp only [strip_redirections, h, if_true, List.length_cons]
    omega
  | case5 t u rest h ih =>
    simp only [strip_redirections, h, List.length_cons]
    simp at ih ⊢
    omega

theorem strip_amp_length_le (l : List String) : (strip_amp l).length ≤ l.length := by
  unfold strip_amp
  split
  · simp
  · exact le_refl _

/-- On a line that fits the token array `parse_tokens` either succeeds, and the
line is well formed, or returns -1, and the line is malformed. -/
theorem parse_tokens_total (toks : List String) (hlen : toks.length < TOKENS_SIZE) :
    (∃ p, parse_tokens toks = .ok p ∧ ¬ malformed toks) ∨
    (∃ msg, parse_tokens toks = .error (.bad_line msg) ∧ malformed toks) := by
  obtain ⟨hoob, herr⟩ := redirect_loop_err 0 toks LoopState.init (by omega)
  have f1 : LoopState.init.input_redirected = false := rfl
  have f2 : LoopState.init.output_redirected = false := rfl
  simp only [f1, f2, Bool.false_eq_true, if_false, Nat.add_zero] at herr
  have h1 : ¬ TOKENS_SIZE < toks.length := by omega
  unfold parse_tokens
  simp only [h1, if_false]
  cases hst : redirect_loop 0 toks LoopState.init with
  | error e =>
    cases e with
    | out_of_bounds => exact absurd hst hoob
    | bad_line msg =>
      right
      exact ⟨msg, rfl, herr.mp ⟨msg, hst⟩⟩
  | ok st =>
    left
    have hmal : ¬ malformed toks := by
      intro hm
      obtain ⟨msg, hmsg⟩ := herr.mpr hm
      rw [hst] at hmsg
      cases hmsg
    have hfin := (redirect_loop_ok _ _ _ _ hst).1
    simp only [LoopState.init, List.nil_append] at hfin
    have hle : (strip_amp st.tokens_final).length < ARGV_SIZE := by
      have a := strip_amp_length_le st.tokens_final
      have b := strip_redirections_length_le toks
      rw [← hfin] at b
      have c : TOKENS_SIZE = ARGV_SIZE := rfl
      omega
    simp only [bg_step_eq]
    by_cases h0 : 0 < (strip_amp st.tokens_final).length
    · obtain ⟨argv, g0, -⟩ := argv_step_ok _ h0 hle
      rw [g0]
      exact ⟨_, rfl, hmal⟩
    · have : argv_step (strip_amp st.tokens_final) (strip_amp st.tokens_final).length
          (List.replicate ARGV_SIZE none) = .ok (List.replicate ARGV_SIZE none) := by
        unfold argv_step
        simp only [h0, if_false]
      rw [this]
      exact ⟨_, rfl, hmal⟩

/-! ## The parser claims -/

/-- C1. When `parse` succeeds and `n ≥ 1` command tokens `t0..t(n-1)` remain
after the redirection operators with their targets and a trailing "&" are
removed, `argv` holds `n` strings followed by NULL at index `n`; `argv[0]` is
`t0` when `t0` has no slash and otherwise what follows the last slash of `t0`;
`argv[i]` is `ti` for `1 ≤ i < n`; and `execv` is called with the whole `t0` as
program path and with this `argv`. -/
theorem parse_builds_argv (buffer : List Char) (p : Parsed)
    (h : parse buffer = .ok p)
    (hn : 1 ≤ (strip_amp (strip_redirections (strtok_all buffer))).length) :
    p.tokens = strip_amp (strip_redirections (strtok_all buffer))
    ∧ p.token_num = p.tokens.length
    ∧ (∀ i, i < p.token_num → ∃ a, p.argv[i]? = some (some a))
    ∧ p.argv[p.token_num]? = some none
    ∧ (∃ t0 a0, p.tokens[0]? = some t0 ∧ p.argv[0]? = some (some a0)
        ∧ ('/' ∉ t0.data → a0 = t0)
        ∧ ('/' ∈ t0.data → ∃ pre, t0.data = pre ++ '/' :: a0.data ∧ '/' ∉ a0.data))
    ∧ (∀ i, 1 ≤ i → i < p.token_num → p.argv[i]? = some p.tokens[i]?)
    ∧ execv_args p = (p.tokens[0]?, p.argv) := by
  obtain ⟨st, argv, hst, hargv, e1, e2, e3, -⟩ := parse_tokens_ok _ _ h
  have hfin := (redirect_loop_ok _ _ _ _ hst).1
  simp only [LoopState.init, List.nil_append] at hfin
  rw [hfin] at e1 e2 hargv
  have hlen : (strip_amp (strip_redirections (strtok_all buffer))).length < ARGV_SIZE := by
    by_contra hc
    unfold argv_step at hargv
    have h0 : 0 < (strip_amp (strip_redirections (strtok_all buffer))).length := hn
    have h1 : ARGV_SIZE ≤ (strip_amp (strip_redirections (strtok_all buffer))).length := by omega
    simp [h0, h1] at hargv
  obtain ⟨argv2, g0, g1, g2, g3, g4⟩ := argv_step_ok _ hn hlen
  rw [hargv] at g0
  injection g0 with g0
  subst g0
  rw [← e1] at g2 g3 g4 hn hlen
  rw [← e3] at g2 g3 g4
  have e2b : p.token_num = p.tokens.length := by rw [e2, e1]
  refine ⟨e1, e2b, ?_, ?_, ?_, ?_, rfl⟩
  · intro i hi
    rw [e2b] at hi
    by_cases hi0 : i = 0
    · subst hi0
      rw [g2, List.getElem?_eq_getElem hi]
      exact ⟨_, rfl⟩
    · rw [g3 i (by omega) hi, List.getElem?_eq_getElem hi]
      exact ⟨_, rfl⟩
  · rw [e2b]
    exact g4 _ (le_refl _) hlen
  · have h0 : 0 < p.tokens.length := hn
    refine ⟨p.tokens[0], argv0 p.tokens[0], List.getElem?_eq_getElem h0, ?_, argv0_spec _⟩
    rw [g2, List.getElem?_eq_getElem h0]
    rfl
  · intro i hi1 hi2
    rw [e2b] at hi2
    exact g3 i hi1 hi2

theorem parse_builds_argv_witness :
    parse echo_line = .ok echo_parsed
    ∧ execv_args echo_parsed = (some "/bin/echo", echo_parsed.argv)
    ∧ echo_parsed.argv[1]? = some (some "hi")
    ∧ echo_parsed.argv[2]? = some none
    ∧ echo_parsed.argv.take 3 = [some "echo", some "hi", none] :=
  have h := parse_builds_argv echo_line echo_parsed rfl (by decide)
  ⟨rfl, h.2.2.2.2.2.2, h.2.2.2.2.2.1 1 (le_refl 1) (by decide), h.2.2.2.1, by decide⟩

/-- C2. On a line with fewer than 512 tokens `parse` returns -1 exactly when
some redirection operator is the last token or is directly followed by another
redirection operator, or "<" occurs more than once, or ">" and ">>" together
occur more than once; on every other such line it returns 0. -/
theorem parse_rejects_iff_malformed (buffer : List Char)
    (hlen : (strtok_all buffer).length < TOKENS_SIZE) :
    (parse_ret buffer = some (-1) ↔ malformed (strtok_all buffer))
    ∧ (¬ malformed (strtok_all buffer) → parse_ret buffer = some 0) := by
  unfold parse_ret parse
  rcases parse_tokens_total _ hlen with ⟨p, hp, hm⟩ | ⟨msg, hp, hm⟩
  · rw [hp]
    simp [hm]
  · rw [hp]
    simp [hm]

theorem parse_rejects_iff_malformed_witness :
    (parse_ret "sort < in.txt < other.txt".data = some (-1)
      ∧ malformed (strtok_all "sort < in.txt < other.txt".data))
    ∧ (parse_ret "ls >".data = some (-1) ∧ malformed (strtok_all "ls >".data))
    ∧ parse_ret echo_line = some 0 :=
  ⟨⟨rfl, (parse_rejects_iff_malformed "sort < in.txt < other.txt".data (by decide)).1.mp rfl⟩,
   ⟨rfl, (parse_rejects_iff_malformed "ls >".data (by decide)).1.mp rfl⟩,
   (parse_rejects_iff_malformed echo_line (by decide)).2 (by decide)⟩

/-- C3, as stated, fails on a background line: after `parse` has run on
`sleep 5 &` the command tokens are `sleep` and `5`, while removing the
redirection operators and their targets from the line leaves the "&" in. -/
theorem parse_tokens_drops_amp :
    ¬ (∀ (buffer : List Char) (p : Parsed), parse buffer = .ok p →
        p.tokens = strip_redirections (strtok_all buffer)) := by
  intro h
  have := h sleep_line sleep_parsed rfl
  revert this
  decide

/-- C3, amended. When `parse` succeeds, the command tokens are the tokens of
the line with every redirection operator and the token after it removed, in
order, and without the last remaining token when that token is "&"; the input
redirect is set exactly when the line has "<", and its path is the token after
"<"; the output redirect is set exactly when the line has ">" or ">>", its path
is the token after that operator, and its code is 1 for ">" and 2 for ">>". -/
theorem parse_tokens_and_redirects (buffer : List Char) (p : Parsed)
    (h : parse buffer = .ok p) :
    p.tokens = strip_amp (strip_redirections (strtok_all buffer))
    ∧ p.token_num = p.tokens.length
    ∧ (p.input_redirect_code = 1 ↔ "<" ∈ strtok_all buffer)
    ∧ ("<" ∈ strtok_all buffer →
        ∃ path, token_after "<" (strtok_all buffer) = some path ∧ p.input_file = some path)
    ∧ ("<" ∉ strtok_all buffer → p.input_redirect_code = 0 ∧ p.input_file = none)
    ∧ (p.output_redirect_code ≠ 0 ↔ (">" ∈ strtok_all buffer ∨ ">>" ∈ strtok_all buffer))
    ∧ (">" ∈ strtok_all buffer → p.output_redirect_code = 1 ∧
        ∃ path, token_after ">" (strtok_all buffer) = some path ∧ p.output_file = some path)
    ∧ (">>" ∈ strtok_all buffer → p.output_redirect_code = 2 ∧
        ∃ path, token_after ">>" (strtok_all buffer) = some path ∧ p.output_file = some path)
    ∧ (">" ∉ strtok_all buffer → ">>" ∉ strtok_all buffer →
        p.output_redirect_code = 0 ∧ p.output_file = none) := by
  obtain ⟨st, argv, hst, -, e1, e2, -, -, e5, e6, e7, e8⟩ := parse_tokens_ok _ _ h
  obtain ⟨a1, -, -, a4, a5, a6, a7, a8⟩ := redirect_loop_ok _ _ _ _ hst
  simp only [LoopState.init, List.nil_append] at a1 a5 a8
  rw [← e5, ← e7] at a4 a5
  rw [← e6, ← e8] at a6 a7 a8
  rw [a1] at e1
  refine ⟨e1, by rw [e2, e1, a1], ?_, fun hm => (a4 hm).2, a5, ?_,
    fun hm => (a6 hm).2, fun hm => (a7 hm).2, a8⟩
  · constructor
    · intro hc
      by_contra hm
      rw [(a5 hm).1] at hc
      cases hc
    · intro hm
      exact (a4 hm).1
  · constructor
    · intro hc
      by_contra hm
      simp only [not_or] at hm
      exact hc (a8 hm.1 hm.2).1
    · rintro (hm | hm)
      · rw [(a6 hm).2.1]
        decide
      · rw [(a7 hm).2.1]
        decide

theorem parse_tokens_and_redirects_witness :
    parse sort_line = .ok sort_parsed
    ∧ sort_parsed.tokens = ["sort"]
    ∧ (∃ path, token_after "<" (strtok_all sort_line) = some path ∧
        sort_parsed.input_file = some path)
    ∧ (sort_parsed.output_redirect_code = 2 ∧
        ∃ path, token_after ">>" (strtok_all sort_line) = some path ∧
          sort_parsed.output_file = some path) :=
  have h := parse_tokens_and_redirects sort_line sort_parsed rfl
  ⟨rfl, h.1, h.2.2.2.1 (by decide), h.2.2.2.2.2.2.2.1 (by decide)⟩

/-! ## Facts about the job table and the shell steps -/

theorem JidStep.refl (s : Shell) : JidStep s s :=
  ⟨id, le_refl _, [], by simp⟩

theorem JidStep.trans {a b c : Shell} (h1 : JidStep a b) (h2 : JidStep b c) : JidStep a c := by
  obtain ⟨i1, n1, m1, e1⟩ := h1
  obtain ⟨i2, n2, m2, e2⟩ := h2
  exact ⟨fun h => i2 (i1 h), le_trans n1 n2, m1 ++ m2, by rw [e2, e1, List.append_assoc]⟩

/-- A step that leaves the table, the counter and the history alone. -/
theorem JidStep.of_same {s s2 : Shell} (h1 : s2.job_list = s.job_list)
    (h2 : s2.next_avail_jid = s.next_avail_jid) (h3 : s2.inserted = s.inserted) :
    JidStep s s2 := by
  refine ⟨?_, by rw [h2], [], by simp [h3]⟩
  unfold JidInv
  rw [h1, h2, h3]
  exact id

theorem JidStep.eprint (s : Shell) (msg : String) : JidStep s (s.eprint msg) :=
  JidStep.of_same rfl rfl rfl

theorem JidStep.print (s : Shell) (msg : String) : JidStep s (s.print msg) :=
  JidStep.of_same rfl rfl rfl

theorem JidStep.call (s : Shell) (c : SysCall) : JidStep s (s.call c) :=
  JidStep.of_same rfl rfl rfl

theorem JidStep.remove (s : Shell) (pid : Int) (jl : job_list_t)
    (h : remove_job_pid s.job_list pid = some jl) : JidStep s { s with job_list := jl } := by
  unfold remove_job_pid at h
  split at h
  · injection h with h
    subst h
    refine ⟨?_, le_refl _, [], by simp⟩
    rintro ⟨a, b, c, d, e⟩
    refine ⟨?_, ?_, c, d, ?_⟩
    · exact a.sublist ((List.filter_sublist _).map _)
    · intro j hj
      exact b j (List.mem_of_mem_filter hj)
    · intro j hj
      exact e j (List.mem_of_mem_filter hj)
  · cases h

theorem JidStep.update (s : Shell) (pid : Int) (st : process_state_t) (jl : job_list_t)
    (h : update_job_pid s.job_list pid st = some jl) : JidStep s { s with job_list := jl } := by
  unfold update_job_pid at h
  split at h
  · injection h with h
    subst h
    refine ⟨?_, le_refl _, [], by simp⟩
    rintro ⟨a, b, c, d, e⟩
    refine ⟨?_, ?_, c, d, ?_⟩
    · have : (List.map (fun j => j.jid)
          (List.map (fun j => if j.pid = pid then { j with state := st } else j) s.job_list.jobs))
          = List.map (fun j => j.jid) s.job_list.jobs := by
        rw [List.map_map]
        apply List.map_congr_left
        intro j _
        simp only [Function.comp]
        split <;> rfl
      simpa [this] using a
    · intro j hj
      simp only [List.mem_map] at hj
      obtain ⟨k, hk, rfl⟩ := hj
      have := b k hk
      split <;> simpa using this
    · intro j hj
      simp only [List.mem_map] at hj
      obtain ⟨k, hk, rfl⟩ := hj
      have := e k hk
      split <;> simpa using this
  · cases h

/-- Inserting under the id `next_avail_jid` and then counting that id as used. -/
theorem JidStep.add (s s2 : Shell) (pid : Int) (st : process_state_t) (command : String)
    (h : shell_add_job s s.next_avail_jid pid st command = some s2) :
    JidStep s { s2 with next_avail_jid := s2.next_avail_jid + 1 } := by
  unfold shell_add_job at h
  cases hadd : add_job s.job_list s.next_avail_jid pid st command with
  | none => rw [hadd] at h; cases h
  | some jl =>
    rw [hadd] at h
    injection h with h
    subst h
    unfold add_job at hadd
    split at hadd
    · cases hadd
    · split at hadd
      · cases hadd
      · injection hadd with hadd
        subst hadd
        refine ⟨?_, by simp, [s.next_avail_jid], rfl⟩
        rintro ⟨a, b, c, d, e⟩
        refine ⟨?_, ?_, ?_, ?_, ?_⟩
        · simp only [List.map_append, List.map_cons, List.map_nil]
          rw [List.nodup_append]
          refine ⟨a, by simp, ?_⟩
          intro x hx hx2
          simp only [List.mem_map] at hx
          obtain ⟨j, hj, rfl⟩ := hx
          simp only [List.mem_singleton] at hx2
          have := b j hj
          omega
        · intro j hj
          simp only [List.mem_append, List.mem_singleton] at hj
          rcases hj with hj | rfl
          · have := b j hj
            simp only
            omega
          · simp
        · rw [List.pairwise_append]
          refine ⟨c, by simp, ?_⟩
          intro x hx y hy
          simp only [List.mem_singleton] at hy
          subst hy
          exact d x hx
        · intro x hx
          simp only [List.mem_append, List.mem_singleton] at hx
          rcases hx with hx | rfl
          · have := d x hx
            simp only
            omega
          · simp
        · intro j hj
          simp only [List.mem_append, List.mem_singleton] at hj ⊢
          rcases hj with hj | rfl
          · exact Or.inl (e j hj)
          · exact Or.inr rfl

/-- Counting an id as used without inserting. -/
theorem JidStep.bump (s : Shell) : JidStep s { s with next_avail_jid := s.next_avail_jid + 1 } := by
  refine ⟨?_, by simp, [], by simp⟩
  rintro ⟨a, b, c, d, e⟩
  refine ⟨a, ?_, c, ?_, e⟩
  · intro j hj
    have := b j hj
    simp only
    omega
  · intro x hx
    have := d x hx
    simp only
    omega

theorem JidStep.tty (s : Shell) (pgrp : Int) : JidStep s { s with tty_pgrp := pgrp } :=
  JidStep.of_same rfl rfl rfl

theorem fg_classify_step (s : Shell) (child_pid : Int) (command : Option String)
    (fg_status : wait_status) (printf_ok : Bool) :
    JidStep s (fg_end (fg_classify s child_pid command fg_status printf_ok)) := by
  unfold fg_classify
  cases printf_ok <;> cases fg_status <;> cases command <;> dsimp only <;> repeat' split
  all_goals first
    | exact JidStep.refl _
    | exact JidStep.eprint _ _
    | exact JidStep.print _ _
    | exact (JidStep.print _ _).trans (JidStep.eprint _ _)
    | (rename_i h; exact JidStep.remove _ _ _ h)
    | (rename_i h; exact (JidStep.print _ _).trans (JidStep.update _ _ _ _ h))
    | (rename_i h; exact (JidStep.print _ _).trans (JidStep.add _ _ _ _ _ h))

theorem handle_fg_process_step (s : Shell) (child_pid : Int) (command : Option String)
    (tc_give : Bool) (fg_status : wait_status) (printf_ok tc_back : Bool) :
    JidStep s (handle_fg_process s child_pid command tc_give fg_status printf_ok tc_back).2 := by
  unfold handle_fg_process
  cases tc_give with
  | false => exact JidStep.eprint _ _
  | true =>
    simp only [Bool.not_true, Bool.false_eq_true, if_false]
    have h0 : JidStep s (({ (s.call (.tcsetpgrp child_pid)) with tty_pgrp := child_pid } : Shell).call
        (.waitpid child_pid)) :=
      ((JidStep.call _ _).trans (JidStep.tty _ _)).trans (JidStep.call _ _)
    have h1 := fg_classify_step (({ (s.call (.tcsetpgrp child_pid)) with tty_pgrp := child_pid } : Shell).call
        (.waitpid child_pid)) child_pid command fg_status printf_ok
    split
    · rename_i s2 heq
      rw [heq] at h1
      exact h0.trans h1
    · rename_i s2 heq
      rw [heq] at h1
      cases tc_back with
      | false => exact (h0.trans h1).trans (JidStep.eprint _ _)
      | true => exact (h0.trans h1).trans ((JidStep.call _ _).trans (JidStep.tty _ _))

theorem try_print_step (s : Shell) (ok : Bool) (line msg : String) :
    JidStep s (try_print s ok line msg) := by
  unfold try_print
  split
  · exact JidStep.print _ _
  · exact JidStep.eprint _ _

theorem try_remove_step (s : Shell) (pid : Int) (msg : String) :
    JidStep s (try_remove s pid msg) := by
  unfold try_remove
  split
  · rename_i jl h
    exact JidStep.remove _ _ _ h
  · exact JidStep.eprint _ _

theorem try_update_step (s : Shell) (pid : Int) (st : process_state_t) (msg : String) :
    JidStep s (try_update s pid st msg) := by
  unfold try_update
  split
  · rename_i jl h
    exact JidStep.update _ _ _ _ h
  · exact JidStep.eprint _ _

theorem reap_visit_step (s : Shell) (pid : Int) (status : Option wait_status) (pr : Bool) :
    JidStep s (reap_visit s pid status pr) := by
  unfold reap_visit
  have hpre : JidStep s (if get_job_jid s.job_list pid < 0 then s.eprint "Error getting job jid"
      else s) := by
    split
    · exact JidStep.eprint _ _
    · exact JidStep.refl _
  rcases status with _ | _ | _ | _ | _ <;> dsimp only
  · exact hpre
  · exact hpre.trans ((try_print_step _ _ _ _).trans (try_remove_step _ _ _))
  · exact hpre.trans ((try_print_step _ _ _ _).trans (try_remove_step _ _ _))
  · exact hpre.trans ((try_update_step _ _ _ _).trans (try_print_step _ _ _ _))
  · exact hpre.trans ((try_update_step _ _ _ _).trans (try_print_step _ _ _ _))

theorem foldl_step {α : Type} (f : Shell → α → Shell) (hf : ∀ s a, JidStep s (f s a))
    (l : List α) (s : Shell) : JidStep s (l.foldl f s) := by
  induction l generalizing s with
  | nil => exact JidStep.refl _
  | cons a r ih => exact (hf s a).trans (ih _)

theorem reap_jobs_step (s : Shell) (status : Int → Option wait_status)
    (printf_ok : Int → Bool) : JidStep s (reap_jobs s status printf_ok) :=
  foldl_step _ (fun _ _ => reap_visit_step _ _ _ _) _ _

theorem launch_bg_step (s : Shell) (env : Env) (command : String) :
    JidStep s (launch_bg s env command) := by
  unfold launch_bg
  cases h : shell_add_job s s.next_avail_jid env.child_pid .RUNNING command with
  | none =>
    dsimp only
    exact ((JidStep.eprint _ _).trans (try_print_step _ _ _ _)).trans (JidStep.bump _)
  | some s1 =>
    dsimp only
    have h1 := JidStep.add _ _ _ _ _ h
    have h2 : JidStep { s1 with next_avail_jid := s1.next_avail_jid + 1 }
        { (try_print s1 env.printf_ok (fmt_launched s1.next_avail_jid env.child_pid)
            "Error printing job id and pid of background process") with
          next_avail_jid := (try_print s1 env.printf_ok
            (fmt_launched s1.next_avail_jid env.child_pid)
            "Error printing job id and pid of background process").next_avail_jid + 1 } := by
      apply JidStep.of_same
      · unfold try_print; split <;> rfl
      · unfold try_print; split <;> rfl
      · unfold try_print; split <;> rfl
    exact h1.trans h2

theorem loop_end_next {s1 s2 : Shell} {env : Env} {n : Nat}
    (h : loop_end s1 env n = .next s2) : s2 = s1 := by
  unfold loop_end at h
  split at h
  · cases h
  · injection h with h
    exact h.symm

theorem loop_end_step {s s1 s2 : Shell} {env : Env} {n : Nat} (h1 : JidStep s s1)
    (h : loop_end s1 env n = .next s2) : JidStep s s2 := by
  rw [loop_end_next h]
  exact h1

theorem builtin_fg_step (s s2 : Shell) (env : Env) (p : Parsed) (n : Nat)
    (h : builtin_fg s env p n = .next s2) : JidStep s s2 := by
  unfold builtin_fg at h
  split at h
  · split at h
    · split at h
      · cases h
      · dsimp only at h
        split at h
        · exact loop_end_step (JidStep.eprint _ _) h
        · split at h
          · exact loop_end_step (JidStep.eprint _ _) h
          · split at h
            · exact loop_end_step ((JidStep.call _ _).trans (JidStep.eprint _ _)) h
            · rename_i jl hup
              have h1 := (JidStep.call _ _).trans (JidStep.update _ _ _ _ hup)
              split at h
              · exact loop_end_step
                  ((h1.trans (handle_fg_process_step _ _ _ _ _ _ _)).trans (JidStep.eprint _ _)) h
              · exact loop_end_step (h1.trans (handle_fg_process_step _ _ _ _ _ _ _)) h
    · exact loop_end_step (JidStep.eprint _ _) h
  · exact loop_end_step (JidStep.eprint _ _) h

theorem builtin_bg_step (s s2 : Shell) (env : Env) (p : Parsed) (n : Nat)
    (h : builtin_bg s env p n = .next s2) : JidStep s s2 := by
  unfold builtin_bg at h
  split at h
  · split at h
    · split at h
      · cases h
      · dsimp only at h
        split at h
        · exact loop_end_step (JidStep.eprint _ _) h
        · split at h
          · exact loop_end_step (JidStep.eprint _ _) h
          · split at h
            · exact loop_end_step ((JidStep.call _ _).trans (JidStep.eprint _ _)) h
            · rename_i jl hup
              exact loop_end_step ((JidStep.call _ _).trans (JidStep.update _ _ _ _ hup)) h
    · exact loop_end_step (JidStep.eprint _ _) h
  · exact loop_end_step (JidStep.eprint _ _) h

theorem builtin_file_step (s s2 : Shell) (env : Env) (p : Parsed) (argc : Nat)
    (call name : String) (n : Nat)
    (h : builtin_file s env p argc call name n = .next s2) : JidStep s s2 := by
  unfold builtin_file at h
  split at h
  · split at h
    · exact loop_end_step (JidStep.eprint _ _) h
    · exact loop_end_step (JidStep.refl _) h
  · exact loop_end_step (JidStep.eprint _ _) h

theorem launch_step (s s2 : Shell) (env : Env) (p : Parsed) (command : String) (n : Nat)
    (h : launch s env p command n = .next s2) : JidStep s s2 := by
  unfold launch at h
  split at h
  · cases h
  · dsimp only at h
    split at h
    · exact loop_end_step ((JidStep.call _ _).trans (launch_bg_step _ _ _)) h
    · have h2 := handle_fg_process_step (s.call (.fork env.child_pid)) env.child_pid
        (some command) env.tc_give env.fg_status env.printf_ok env.tc_back
      split at h
      · cases h
      · exact loop_end_step ((JidStep.call _ _).trans h2) h

theorem dispatch_step (s s2 : Shell) (env : Env) (p : Parsed) (command : String) (n : Nat)
    (h : dispatch s env p command n = .next s2) : JidStep s s2 := by
  unfold dispatch at h
  split at h
  · cases h
  · split at h
    · exact builtin_file_step _ _ _ _ _ _ _ _ h
    · split at h
      · exact builtin_file_step _ _ _ _ _ _ _ _ h
      · split at h
        · exact builtin_file_step _ _ _ _ _ _ _ _ h
        · split at h
          · exact builtin_fg_step _ _ _ _ _ h
          · split at h
            · exact builtin_bg_step _ _ _ _ _ h
            · split at h
              · split at h
                · have hj : JidStep s { s with out := s.out ++ jobs_listing s.job_list } :=
                    JidStep.of_same rfl rfl rfl
                  exact loop_end_step hj h
                · exact loop_end_step (JidStep.eprint _ _) h
              · exact launch_step _ _ _ _ _ _ h

/-- One iteration of the loop of `main` that goes on to the next keeps the
job-id invariant and does not lower `next_avail_jid`. -/
theorem main_iteration_step (s s2 : Shell) (env : Env)
    (h : main_iteration s env = .next s2) : JidStep s s2 := by
  unfold main_iteration at h
  split at h
  · cases h
  · dsimp only at h
    have hr := reap_jobs_step s env.reap_status env.reap_printf_ok
    split at h
    · cases h
    · split at h
      · cases h
      · split at h
        · cases h
        · exact loop_end_step (hr.trans (JidStep.eprint _ _)) h
        · split at h
          · exact loop_end_step hr h
          · split at h
            · cases h
            · exact hr.trans (dispatch_step _ _ _ _ _ _ h)

theorem JidInv_init (capacity : Nat) (shell_pgid tty_pgrp : Int) :
    JidInv (Shell.init capacity shell_pgid tty_pgrp) := by
  simp [JidInv, Shell.init, init_job_list]

theorem find_pid_any (l : List job_element) (pid : Int) (j : job_element)
    (h : l.find? (fun k => decide (k.pid = pid)) = some j) :
    l.any (fun k => decide (k.pid = pid)) = true := by
  rw [List.any_eq_true]
  have h2 := @List.find?_some _ (fun (k : job_element) => decide (k.pid = pid)) j l h
  exact ⟨j, List.mem_of_find?_eq_some h, h2⟩

theorem find_pid_map_state (l : List job_element) (pid : Int) (st : process_state_t)
    (j : job_element) (h : l.find? (fun k => decide (k.pid = pid)) = some j) :
    (l.map (fun k => if k.pid = pid then { k with state := st } else k)).find?
        (fun k => decide (k.pid = pid)) = some { j with state := st } := by
  induction l with
  | nil => simp at h
  | cons a r ih =>
    by_cases ha : a.pid = pid
    · simp only [List.find?_cons, ha, decide_True] at h
      injection h with h
      subst h
      simp [List.find?_cons, ha]
    · have h2 : r.find? (fun k => decide (k.pid = pid)) = some j := by
        simpa [List.find?_cons, ha] using h
      simp [List.find?_cons, ha, ih h2]

theorem get_job_jid_of_find (jl : job_list_t) (pid : Int) (j : job_element)
    (h : jl.jobs.find? (fun k => decide (k.pid = pid)) = some j) :
    get_job_jid jl pid = j.jid := by
  unfold get_job_jid
  rw [h]

theorem update_job_pid_of_find (jl : job_list_t) (pid : Int) (st : process_state_t)
    (j : job_element) (h : jl.jobs.find? (fun k => decide (k.pid = pid)) = some j) :
    ∃ jl2, update_job_pid jl pid st = some jl2
      ∧ jl2.jobs.find? (fun k => decide (k.pid = pid)) = some { j with state := st }
      ∧ jl2.jobs.map (fun k => k.jid) = jl.jobs.map (fun k => k.jid)
      ∧ jl2.capacity = jl.capacity := by
  unfold update_job_pid
  rw [find_pid_any _ _ _ h]
  refine ⟨_, rfl, find_pid_map_state _ _ _ _ h, ?_, rfl⟩
  simp only [List.map_map]
  apply List.map_congr_left
  intro k _
  simp only [Function.comp]
  split <;> rfl

theorem remove_job_pid_of_find (jl : job_list_t) (pid : Int) (j : job_element)
    (h : jl.jobs.find? (fun k => decide (k.pid = pid)) = some j) :
    remove_job_pid jl pid =
      some { jl with jobs := jl.jobs.filter (fun k => decide (k.pid ≠ pid)) } := by
  unfold remove_job_pid
  rw [find_pid_any _ _ _ h]
  rfl

theorem add_job_of_room (jl : job_list_t) (jid pid : Int) (st : process_state_t)
    (command : String) (hroom : jl.jobs.length < jl.capacity)
    (hnew : ∀ k ∈ jl.jobs, k.pid ≠ pid) :
    add_job jl jid pid st command = some { jl with jobs := jl.jobs ++
      [({ jid := jid, pid := pid, state := st, command := command } : job_element)] } := by
  unfold add_job
  have h1 : ¬ jl.capacity ≤ jl.jobs.length := by omega
  have h2 : jl.jobs.any (fun j => decide (j.pid = pid)) = false := by
    rw [Bool.eq_false_iff, ne_eq, List.any_eq_true]
    rintro ⟨k, hk, hk2⟩
    exact hnew k hk (by simpa using hk2)
  simp only [h1, if_false, h2, Bool.false_eq_true]

theorem get_job_pid_found (jl : job_list_t) (jid : Int) (h : 0 ≤ get_job_pid jl jid) :
    ∃ j, jl.jobs.find? (fun k => decide (k.pid = get_job_pid jl jid)) = some j := by
  unfold get_job_pid at h ⊢
  cases hf : jl.jobs.find? (fun j => decide (j.jid = jid)) with
  | none => rw [hf] at h; simp at h
  | some j =>
    simp only
    have hm := List.mem_of_find?_eq_some hf
    cases hg : jl.jobs.find? (fun k => decide (k.pid = j.pid)) with
    | none =>
      rw [List.find?_eq_none] at hg
      have := hg j hm
      simp at this
    | some k => exact ⟨k, rfl⟩

/-- A numeral past `INT_MAX` has no `atoi` value, one within range has its
own. -/
theorem atoi_range_examples :
    atoi "4294967297".data = none ∧ atoi "2147483648".data = none
    ∧ atoi "2147483647".data = some 2147483647 ∧ atoi "-2147483648".data = some (-2147483648)
    ∧ atoi "1".data = some 1 ∧ atoi "abc".data = some 0 := by
  decide

/-- A line `fg %4294967297` while job 1 is in the table: the number does not
fit the `int` that receives it, so the iteration has no defined behaviour. -/
theorem fg_wide_numeral_undefined :
    main_iteration roomy_shell (calm_env "fg %4294967297".data 200 (.exited 0)) = .undefined := by
  rfl

/-! ## The job-control claims -/

/-- C4. A foreground command that is run for the first time, with the first
`tcsetpgrp` and the `printf` succeeding, is stopped by a signal, and `add_job`
fails: `handle_fg_process` returns -1 through the early `return` after
"Error adding job", and the terminal is left with the process group of the
child, whatever the last `tcsetpgrp` would have returned. -/
theorem handle_fg_process_leaves_terminal_with_child (s : Shell) (child_pid : Int)
    (command : String) (signum : Nat) (tc_back : Bool)
    (hadd : add_job s.job_list s.next_avail_jid child_pid .STOPPED command = none) :
    (handle_fg_process s child_pid (some command) true (.stopped signum) true tc_back).1 = -1
    ∧ (handle_fg_process s child_pid (some command) true (.stopped signum) true
        tc_back).2.tty_pgrp = child_pid
    ∧ (handle_fg_process s child_pid (some command) true (.stopped signum) true
        tc_back).2.sys = s.sys ++ [.tcsetpgrp child_pid, .waitpid child_pid] := by
  simp [handle_fg_process, fg_classify, shell_add_job, Shell.call, Shell.print, Shell.eprint,
    hadd]

theorem handle_fg_process_leaves_terminal_with_child_witness :
    add_job full_shell.job_list 2 200 .STOPPED "/bin/cat" = none
    ∧ (handle_fg_process full_shell 200 (some "/bin/cat") true (.stopped 20) true true).1 = -1
    ∧ (handle_fg_process full_shell 200 (some "/bin/cat") true (.stopped 20) true true).2.tty_pgrp
        = 200
    ∧ full_shell.shell_pgid = 10 :=
  have h := handle_fg_process_leaves_terminal_with_child full_shell 200 "/bin/cat" 20 true
    (by decide)
  ⟨by decide, h.1, h.2.1, rfl⟩

/-- C7. A command that is run for the first time and exits normally leaves
the job table and `next_avail_jid` as they were, and nothing is written to
stdout, whatever the exit code and whatever the `tcsetpgrp` calls return. -/
theorem handle_fg_process_exit_first_run (s : Shell) (child_pid : Int) (command : String)
    (exit_status : Nat) (tc_give printf_ok tc_back : Bool) :
    (handle_fg_process s child_pid (some command) tc_give (.exited exit_status)
        printf_ok tc_back).2.job_list = s.job_list
    ∧ (handle_fg_process s child_pid (some command) tc_give (.exited exit_status)
        printf_ok tc_back).2.next_avail_jid = s.next_avail_jid
    ∧ (handle_fg_process s child_pid (some command) tc_give (.exited exit_status)
        printf_ok tc_back).2.out = s.out
    ∧ (handle_fg_process s child_pid (some command) tc_give (.exited exit_status)
        printf_ok tc_back).2.inserted = s.inserted := by
  cases tc_give <;> cases tc_back <;>
    simp [handle_fg_process, fg_classify, Shell.eprint, Shell.call]

/-- C5, as stated, fails when the job table is full: launching `sleep 5 &`
as process 200 from `full_shell` goes on to the next iteration with "[2] (200)"
printed and `next_avail_jid` raised to 3, but the table holds no entry for
process group 200. -/
theorem launch_bg_full_table :
    ∃ s2, launch full_shell (calm_env sleep_line 200 (.exited 0)) sleep_parsed "sleep" 10
        = .next s2
      ∧ s2.job_list.jobs.filter (fun j => decide (j.pid = 200)) = []
      ∧ s2.job_list = full_shell.job_list
      ∧ s2.out = ["[2] (200)\n"]
      ∧ s2.err = ["Error adding background job"]
      ∧ s2.next_avail_jid = 3 :=
  ⟨_, rfl, by decide, by decide, by decide, by decide, by decide⟩

/-- C5, amended. For a background command line, when the job table is below
its capacity and has no entry for the process group of the child, the launch
step of `main` leaves exactly one entry for that process group, in state
RUNNING, under the id `next_avail_jid` had before; that id is the one in the
"[id] (pid)" line when the line is printed; and `next_avail_jid` goes up by
one. -/
theorem launch_bg_adds_running_job (s : Shell) (env : Env) (p : Parsed) (command : String)
    (n : Nat) (hbg : p.bg_process_flag ≠ 0) (hpid : env.child_pid ≠ 0)
    (hroom : s.job_list.jobs.length < s.job_list.capacity)
    (hnew : ∀ k ∈ s.job_list.jobs, k.pid ≠ env.child_pid) :
    ∃ s2, launch s env p command n = loop_end s2 env n
      ∧ s2.job_list.jobs.filter (fun j => decide (j.pid = env.child_pid)) =
          [{ jid := s.next_avail_jid, pid := env.child_pid, state := .RUNNING,
             command := command }]
      ∧ (env.printf_ok = true →
          s2.out = s.out ++ [fmt_launched s.next_avail_jid env.child_pid])
      ∧ s2.next_avail_jid = s.next_avail_jid + 1 := by
  have hadd := add_job_of_room s.job_list s.next_avail_jid env.child_pid .RUNNING command
    hroom hnew
  have hfil : s.job_list.jobs.filter (fun j => decide (j.pid = env.child_pid)) = [] := by
    rw [List.filter_eq_nil_iff]
    intro k hk
    simpa using hnew k hk
  refine ⟨launch_bg (s.call (.fork env.child_pid)) env command, ?_, ?_, ?_, ?_⟩
  · unfold launch
    simp only [hpid, if_false, hbg, ne_eq, not_false_eq_true, if_true]
  · unfold launch_bg shell_add_job
    simp only [Shell.call, hadd]
    unfold try_print
    split <;> simp [Shell.print, Shell.eprint, List.filter_append, hfil]
  · intro hpr
    unfold launch_bg shell_add_job
    simp only [Shell.call, hadd]
    simp [try_print, hpr, Shell.print]
  · unfold launch_bg shell_add_job
    simp only [Shell.call, hadd]
    unfold try_print
    split <;> simp [Shell.print, Shell.eprint]

theorem launch_bg_adds_running_job_witness :
    ∃ s2, launch (Shell.init 8 10 10) (calm_env sleep_line 100 (.exited 0)) sleep_parsed
        "sleep" 10 = .next s2
      ∧ s2.job_list.jobs.filter (fun j => decide (j.pid = 100)) =
          [{ jid := 1, pid := 100, state := .RUNNING, command := "sleep" }]
      ∧ s2.out = ["[1] (100)\n"]
      ∧ s2.next_avail_jid = 2 :=
  match launch_bg_adds_running_job (Shell.init 8 10 10) (calm_env sleep_line 100 (.exited 0))
    sleep_parsed "sleep" 10 (by decide) (by decide) (by decide) (by decide) with
  | ⟨s2, h1, h2, h3, h4⟩ => ⟨s2, h1, h2, h3 rfl, h4⟩

/-- C6. In every state the shell can be in at the start of a loop iteration
the job ids in the table are pairwise distinct and smaller than
`next_avail_jid`, the ids of the jobs inserted so far are strictly increasing
in the order of insertion and include every id in the table, and an
iteration never lowers `next_avail_jid` and only appends to the list of
inserted ids. -/
theorem jid_invariant (s : Shell) (h : Reach s) :
    (s.job_list.jobs.map (fun j => j.jid)).Nodup
    ∧ (∀ j ∈ s.job_list.jobs, j.jid < s.next_avail_jid)
    ∧ s.inserted.Pairwise (fun a b => a < b)
    ∧ (∀ j ∈ s.job_list.jobs, j.jid ∈ s.inserted)
    ∧ (∀ env s2, main_iteration s env = .next s2 → s2.next_avail_jid ≤ INT_MAX →
        s.next_avail_jid ≤ s2.next_avail_jid ∧ ∃ more, s2.inserted = s.inserted ++ more) := by
  have hinv : JidInv s := by
    induction h with
    | start c a b => exact JidInv_init c a b
    | step s s2 env _ hs _ ih => exact (main_iteration_step s s2 env hs).1 ih
  obtain ⟨a, b, c, _, e⟩ := hinv
  refine ⟨a, b, c, e, ?_⟩
  intro env s2 hs _
  exact (main_iteration_step s s2 env hs).2

theorem jid_invariant_witness :
    Reach bg_shell
    ∧ (bg_shell.job_list.jobs.map (fun j => j.jid)).Nodup
    ∧ (∀ j ∈ bg_shell.job_list.jobs, j.jid < bg_shell.next_avail_jid)
    ∧ bg_shell.inserted.Pairwise (fun a b => a < b) :=
  have hr : Reach bg_shell :=
    Reach.step (Shell.init 8 10 10) bg_shell (calm_env sleep_line 100 (.exited 0))
      (Reach.start 8 10 10) rfl (by decide)
  have h := jid_invariant bg_shell hr
  ⟨hr, h.1, h.2.1, h.2.2.1⟩

/-- C8. `handle_fg_process` sees the foreground leader stopped by signal
`signum`, the terminal hand-off and the `printf` having succeeded.  Called
from fg for a tracked job `j`: the job is now STOPPED with its id unchanged,
"[id] (pid) suspended by signal N" is printed with that id, and no id is
used up.  Called for a first run while the table accepts the insertion:
exactly one entry is appended, with this pgid, state STOPPED, the command
name and the id `next_avail_jid` had before; the same id is printed; and
`next_avail_jid` goes up by one. -/
theorem handle_fg_process_stopped (s : Shell) (child_pid : Int) (signum : Nat)
    (tc_back : Bool) :
    (∀ j, s.job_list.jobs.find? (fun k => decide (k.pid = child_pid)) = some j → 0 ≤ j.jid →
      (handle_fg_process s child_pid none true (.stopped signum) true tc_back).2.job_list.jobs.find?
          (fun k => decide (k.pid = child_pid)) = some { j with state := .STOPPED }
      ∧ (handle_fg_process s child_pid none true (.stopped signum) true tc_back).2.job_list.jobs.map
          (fun k => k.jid) = s.job_list.jobs.map (fun k => k.jid)
      ∧ (handle_fg_process s child_pid none true (.stopped signum) true tc_back).2.out
          = s.out ++ [fmt_suspended j.jid child_pid signum]
      ∧ (handle_fg_process s child_pid none true (.stopped signum) true tc_back).2.next_avail_jid
          = s.next_avail_jid)
    ∧ (∀ command, s.job_list.jobs.length < s.job_list.capacity →
      (∀ k ∈ s.job_list.jobs, k.pid ≠ child_pid) →
      (handle_fg_process s child_pid (some command) true (.stopped signum) true
          tc_back).2.job_list.jobs
        = s.job_list.jobs ++ [{ jid := s.next_avail_jid, pid := child_pid, state := .STOPPED,
                                command := command }]
      ∧ (handle_fg_process s child_pid (some command) true (.stopped signum) true tc_back).2.out
          = s.out ++ [fmt_suspended s.next_avail_jid child_pid signum]
      ∧ (handle_fg_process s child_pid (some command) true (.stopped signum) true
          tc_back).2.next_avail_jid = s.next_avail_jid + 1) := by
  constructor
  · intro j hj hjid
    obtain ⟨jl2, hup, hfind, hjids, -⟩ := update_job_pid_of_find s.job_list child_pid .STOPPED j hj
    have hg := get_job_jid_of_find s.job_list child_pid j hj
    have hneg : ¬ j.jid < 0 := by omega
    cases tc_back <;>
      simp [handle_fg_process, fg_classify, Shell.call, Shell.print, Shell.eprint, hg, hneg, hup,
        hfind, hjids]
  · intro command hroom hnew
    have hadd := add_job_of_room s.job_list s.next_avail_jid child_pid .STOPPED command hroom hnew
    cases tc_back <;>
      simp [handle_fg_process, fg_classify, shell_add_job, Shell.call, Shell.print, Shell.eprint,
        hadd]

theorem handle_fg_process_stopped_witness :
    ((handle_fg_process bg_shell 100 none true (.stopped 20) true true).2.job_list.jobs.find?
          (fun k => decide (k.pid = 100))
        = some { jid := 1, pid := 100, state := .STOPPED, command := "sleep" }
      ∧ (handle_fg_process bg_shell 100 none true (.stopped 20) true true).2.out
        = ["[1] (100)\n", "[1] (100) suspended by signal 20\n"])
    ∧ ((handle_fg_process bg_shell 200 (some "/bin/cat") true (.stopped 20) true true).2.job_list.jobs
        = [{ jid := 1, pid := 100, state := .RUNNING, command := "sleep" },
           { jid := 2, pid := 200, state := .STOPPED, command := "/bin/cat" }]
      ∧ (handle_fg_process bg_shell 200 (some "/bin/cat") true (.stopped 20) true
          true).2.next_avail_jid = 3) :=
  have h := handle_fg_process_stopped bg_shell
  have h1 := (h 100 20 true).1 { jid := 1, pid := 100, state := .RUNNING, command := "sleep" }
    (by decide) (by decide)
  have h2 := (h 200 20 true).2 "/bin/cat" (by decide) (by decide)
  ⟨⟨h1.1, h1.2.2.1⟩, ⟨h2.1, h2.2.2⟩⟩

/-- C9. One visit of `reap_jobs` to a tracked job `j`, with `printf`
succeeding, is decided by the status that `waitpid` reports: no change leaves
table and output as they are; exited and terminated by signal print the
matching line and remove the job; stopped and continued set the state to
STOPPED and RUNNING and print the matching line.  The id in every line is the
id of the job in the table. -/
theorem reap_visit_by_status (s : Shell) (pid : Int) (j : job_element)
    (hj : s.job_list.jobs.find? (fun k => decide (k.pid = pid)) = some j) :
    ((reap_visit s pid none true).job_list = s.job_list
      ∧ (reap_visit s pid none true).out = s.out)
    ∧ (∀ exit_status,
        (reap_visit s pid (some (.exited exit_status)) true).job_list.jobs
          = s.job_list.jobs.filter (fun k => decide (k.pid ≠ pid))
        ∧ (reap_visit s pid (some (.exited exit_status)) true).out
          = s.out ++ [fmt_exited j.jid pid exit_status])
    ∧ (∀ signum,
        (reap_visit s pid (some (.signaled signum)) true).job_list.jobs
          = s.job_list.jobs.filter (fun k => decide (k.pid ≠ pid))
        ∧ (reap_visit s pid (some (.signaled signum)) true).out
          = s.out ++ [fmt_signaled j.jid pid signum])
    ∧ (∀ signum,
        (reap_visit s pid (some (.stopped signum)) true).job_list.jobs.find?
            (fun k => decide (k.pid = pid)) = some { j with state := .STOPPED }
        ∧ (reap_visit s pid (some (.stopped signum)) true).out
          = s.out ++ [fmt_suspended j.jid pid signum])
    ∧ ((reap_visit s pid (some .continued) true).job_list.jobs.find?
            (fun k => decide (k.pid = pid)) = some { j with state := .RUNNING }
        ∧ (reap_visit s pid (some .continued) true).out = s.out ++ [fmt_resumed j.jid pid]) := by
  have hg := get_job_jid_of_find s.job_list pid j hj
  have hrm := remove_job_pid_of_find s.job_list pid j hj
  obtain ⟨jl1, hup1, hfind1, -, -⟩ := update_job_pid_of_find s.job_list pid .STOPPED j hj
  obtain ⟨jl2, hup2, hfind2, -, -⟩ := update_job_pid_of_find s.job_list pid .RUNNING j hj
  by_cases hneg : j.jid < 0
  · refine ⟨?_, ?_, ?_, ?_, ?_⟩
    · simp [reap_visit, Shell.eprint, hg, hneg]
    · intro c
      simp [reap_visit, try_print, try_remove, Shell.print, Shell.eprint, hg, hneg, hrm]
    · intro c
      simp [reap_visit, try_print, try_remove, Shell.print, Shell.eprint, hg, hneg, hrm]
    · intro c
      simp [reap_visit, try_print, try_update, Shell.print, Shell.eprint, hg, hneg, hup1, hfind1]
    · simp [reap_visit, try_print, try_update, Shell.print, Shell.eprint, hg, hneg, hup2, hfind2]
  · refine ⟨?_, ?_, ?_, ?_, ?_⟩
    · simp [reap_visit, hg, hneg]
    · intro c
      simp [reap_visit, try_print, try_remove, Shell.print, hg, hneg, hrm]
    · intro c
      simp [reap_visit, try_print, try_remove, Shell.print, hg, hneg, hrm]
    · intro c
      simp [reap_visit, try_print, try_update, Shell.print, hg, hneg, hup1, hfind1]
    · simp [reap_visit, try_print, try_update, Shell.print, hg, hneg, hup2, hfind2]

theorem reap_visit_by_status_witness :
    (reap_visit bg_shell 100 (some (.exited 3)) true).job_list.jobs = []
    ∧ (reap_visit bg_shell 100 (some (.exited 3)) true).out
        = ["[1] (100)\n", "[1] (100) terminated with exit status 3\n"]
    ∧ (reap_visit bg_shell 100 (some (.stopped 19)) true).out
        = ["[1] (100)\n", "[1] (100) suspended by signal 19\n"] :=
  have h := reap_visit_by_status bg_shell 100
    { jid := 1, pid := 100, state := .RUNNING, command := "sleep" } (by decide)
  ⟨(h.2.1 3).1, (h.2.1 3).2, (h.2.2.2.1 19).2⟩

/-- C10, as stated, fails for a newly launched foreground command: when the
shell reads `/bin/echo hi > out.txt`, forks process 200 and the first
`tcsetpgrp` fails, the iteration ends the shell through `exit(1)`. -/
theorem launch_tcsetpgrp_failure_exits :
    ∃ s2, main_iteration roomy_shell tc_fail_env = .exit 1 s2
      ∧ s2.err = ["tcsetpgrp", "Error handling foreground process"]
      ∧ s2.job_list = roomy_shell.job_list :=
  ⟨_, rfl, by decide, by decide⟩

/-- C10, amended. When the first `tcsetpgrp` of `handle_fg_process` fails:
for the fg built-in on a job that is found and signalled, the failure is
reported on stderr, the job stays in the table, the terminal and
`next_avail_jid` are untouched and the loop goes on to its next iteration;
for a newly launched foreground command the failure is reported and the shell
ends with `exit(1)`. -/
theorem tcsetpgrp_failure_outcomes (s : Shell) (env : Env) (p : Parsed) (n : Nat)
    (htc : env.tc_give = false) (hn : n ≠ 0) :
    (∀ digits jid, p.token_num = 2 →
      (p.tokens[1]?).map String.data = some ('%' :: digits) → atoi digits = some jid →
      0 ≤ get_job_pid s.job_list jid → env.killpg_ok = true →
      ∃ s2 jl, builtin_fg s env p n = .next s2
        ∧ update_job_pid s.job_list (get_job_pid s.job_list jid) .RUNNING = some jl
        ∧ s2.job_list = jl
        ∧ s2.err = s.err ++ ["tcsetpgrp", "Error handling fg process"]
        ∧ s2.tty_pgrp = s.tty_pgrp
        ∧ s2.next_avail_jid = s.next_avail_jid)
    ∧ (∀ command, env.child_pid ≠ 0 → p.bg_process_flag = 0 →
      launch s env p command n = .exit 1
        (((s.call (.fork env.child_pid)).eprint "tcsetpgrp").eprint
          "Error handling foreground process")) := by
  constructor
  · intro digits jid h2 htok hjid hfound hkill
    obtain ⟨j, hj⟩ := get_job_pid_found s.job_list jid hfound
    obtain ⟨jl, hup, -⟩ := update_job_pid_of_find s.job_list _ .RUNNING j hj
    have hneg : ¬ get_job_pid s.job_list jid < 0 := by omega
    refine ⟨(({ (s.call (.killpg (get_job_pid s.job_list jid) "SIGCONT")) with
        job_list := jl } : Shell).eprint "tcsetpgrp").eprint "Error handling fg process",
      jl, ?_, hup, rfl, ?_, rfl, rfl⟩
    · unfold builtin_fg
      rw [if_pos h2, htok]
      simp only [hjid, hneg, if_false, hkill, Bool.not_true, Bool.false_eq_true, Shell.call, hup]
      simp only [handle_fg_process, htc, Bool.not_false, if_true]
      simp only [loop_end, hn, if_false]
      rfl
    · simp [Shell.eprint, Shell.call]
  · intro command hpid hbg
    unfold launch
    simp [hpid, hbg, handle_fg_process, htc]

theorem tcsetpgrp_failure_outcomes_witness :
    parse fg_line = .ok fg_parsed
    ∧ (∃ s2 jl, builtin_fg roomy_shell tc_fail_env fg_parsed 5 = .next s2
        ∧ update_job_pid roomy_shell.job_list (get_job_pid roomy_shell.job_list 1)
            .RUNNING = some jl
        ∧ s2.job_list = jl
        ∧ s2.err = roomy_shell.err ++ ["tcsetpgrp", "Error handling fg process"]
        ∧ s2.tty_pgrp = roomy_shell.tty_pgrp
        ∧ s2.next_avail_jid = roomy_shell.next_avail_jid)
    ∧ launch roomy_shell tc_fail_env echo_parsed "/bin/echo" 22 = .exit 1
        (((roomy_shell.call (.fork 200)).eprint "tcsetpgrp").eprint
          "Error handling foreground process") :=
  have h := tcsetpgrp_failure_outcomes roomy_shell tc_fail_env
  ⟨rfl,
   (h fg_parsed 5 rfl (by decide)).1 ['1'] 1 (by decide) (by decide) (by decide) (by decide)
     rfl,
   (h echo_parsed 22 rfl (by decide)).2 "/bin/echo" (by decide) (by decide)⟩

/-- After lines 195-214 every entry of `argv` from index `token_num` on is
NULL. -/
theorem argv_step_tail_null (ts : List String) (argv : List (Option String))
    (h : argv_step ts ts.length (List.replicate ARGV_SIZE none) = .ok argv) :
    ∀ i, ts.length ≤ i → i < ARGV_SIZE → argv[i]? = some none := by
  intro i hi1 hi2
  by_cases h0 : 0 < ts.length
  · by_cases hl : ts.length < ARGV_SIZE
    · obtain ⟨argv2, g0, -, -, -, g4⟩ := argv_step_ok ts h0 hl
      rw [h] at g0
      injection g0 with g0
      subst g0
      exact g4 i hi1 hi2
    · unfold argv_step at h
      rw [if_pos h0] at h
      dsimp only at h
      rw [if_pos (by omega)] at h
      cases h
  · unfold argv_step at h
    rw [if_neg h0] at h
    injection h with h
    rw [← h, List.getElem?_replicate]
    simp [hi2]

theorem get_job_pid_absent (jl : job_list_t) (jid : Int)
    (h : ∀ j ∈ jl.jobs, j.jid ≠ jid) : get_job_pid jl jid = -1 := by
  unfold get_job_pid
  have : jl.jobs.find? (fun j => decide (j.jid = jid)) = none := by
    rw [List.find?_eq_none]
    intro j hj
    simpa using h j hj
  rw [this]

/-- C12. When `parse` succeeds, `bg_process_flag` is set exactly when the
last token left after the redirection operators and their targets are removed
is "&".  When it is set, that "&" is dropped from the command tokens,
`token_num` is one less than the number of tokens that were left, and `argv`
is NULL from the position of that "&" on, so it is not handed to the
program. -/
theorem parse_background_flag (buffer : List Char) (p : Parsed)
    (h : parse buffer = .ok p) :
    (p.bg_process_flag = 1 ↔ (strip_redirections (strtok_all buffer)).getLast? = some "&")
    ∧ (p.bg_process_flag ≠ 1 → p.bg_process_flag = 0 ∧
        p.tokens = strip_redirections (strtok_all buffer))
    ∧ (p.bg_process_flag = 1 →
        p.tokens = (strip_redirections (strtok_all buffer)).dropLast
        ∧ p.token_num + 1 = (strip_redirections (strtok_all buffer)).length
        ∧ p.tokens ++ ["&"] = strip_redirections (strtok_all buffer)
        ∧ (∀ i, p.token_num ≤ i → i < ARGV_SIZE → p.argv[i]? = some none)
        ∧ execv_args p = (p.tokens[0]?, p.argv)) := by
  obtain ⟨st, argv, hst, hargv, e1, e2, e3, e4, -⟩ := parse_tokens_ok _ _ h
  have hfin := (redirect_loop_ok _ _ _ _ hst).1
  simp only [LoopState.init, List.nil_append] at hfin
  rw [hfin] at e1 e2 e4 hargv
  by_cases hlast : (strip_redirections (strtok_all buffer)).getLast? = some "&"
  · have hflag : p.bg_process_flag = 1 := by simp [e4, hlast]
    have htok : p.tokens = (strip_redirections (strtok_all buffer)).dropLast := by
      rw [e1]; simp [strip_amp, hlast]
    have hne : strip_redirections (strtok_all buffer) ≠ [] := by
      intro hc
      rw [hc] at hlast
      simp at hlast
    have hpos : 0 < (strip_redirections (strtok_all buffer)).length :=
      List.length_pos.mpr hne
    have hsa : strip_amp (strip_redirections (strtok_all buffer))
        = (strip_redirections (strtok_all buffer)).dropLast := by
      simp [strip_amp, hlast]
    have hnum : p.token_num + 1 = (strip_redirections (strtok_all buffer)).length := by
      rw [e2, hsa, List.length_dropLast]
      omega
    refine ⟨by simp [hflag, hlast], fun hc => absurd hflag hc, fun _ => ⟨htok, hnum, ?_, ?_, rfl⟩⟩
    · rw [htok]
      have hl := List.getLast?_eq_getLast _ hne
      rw [hl] at hlast
      injection hlast with hlast
      rw [← hlast]
      exact List.dropLast_append_getLast hne
    · intro i hi1 hi2
      rw [e3]
      rw [e2] at hi1
      exact argv_step_tail_null _ _ hargv i hi1 hi2
  · have hflag : p.bg_process_flag = 0 := by simp [e4, hlast]
    have htok : p.tokens = strip_redirections (strtok_all buffer) := by
      rw [e1]; simp [strip_amp, hlast]
    refine ⟨by simp [hflag, hlast], fun _ => ⟨hflag, htok⟩, fun hc => ?_⟩
    rw [hflag] at hc
    cases hc

theorem parse_background_flag_witness :
    parse sleep_line = .ok sleep_parsed
    ∧ sleep_parsed.bg_process_flag = 1
    ∧ strip_redirections (strtok_all sleep_line) = ["sleep", "5", "&"]
    ∧ sleep_parsed.tokens = ["sleep", "5"]
    ∧ sleep_parsed.token_num + 1 = 3
    ∧ sleep_parsed.argv[2]? = some none :=
  have h := parse_background_flag sleep_line sleep_parsed rfl
  have h3 := h.2.2 (h.1.mpr (by decide))
  ⟨rfl, h.1.mpr (by decide), by decide, h3.1, h3.2.1, h3.2.2.2.1 2 (le_refl 2) (by decide)⟩

/-- C11. The arguments of a line `fg %<id>` or `bg %<id>` whose id, a number
that fits an `int`, no entry of the job table has: the built-in writes
"fg: job not found" or "bg: job not found", makes no system call (no signal is
sent, the terminal is not handed over, nothing is waited for), leaves the job
table, `next_avail_jid` and stdout as they are, and the loop goes on to its
next iteration. -/
theorem fg_bg_job_not_found (s : Shell) (env : Env) (p : Parsed) (n : Nat)
    (digits : List Char) (jid : Int) (h2 : p.token_num = 2)
    (htok : (p.tokens[1]?).map String.data = some ('%' :: digits))
    (hjid : atoi digits = some jid)
    (hno : ∀ j ∈ s.job_list.jobs, j.jid ≠ jid) (hn : n ≠ 0) :
    (∃ s2, dispatch s env p "fg" n = .next s2
      ∧ s2.err = s.err ++ ["fg: job not found\n"]
      ∧ s2.sys = s.sys ∧ s2.tty_pgrp = s.tty_pgrp
      ∧ s2.job_list = s.job_list ∧ s2.next_avail_jid = s.next_avail_jid
      ∧ s2.inserted = s.inserted ∧ s2.out = s.out)
    ∧ (∃ s2, dispatch s env p "bg" n = .next s2
      ∧ s2.err = s.err ++ ["bg: job not found\n"]
      ∧ s2.sys = s.sys ∧ s2.tty_pgrp = s.tty_pgrp
      ∧ s2.job_list = s.job_list ∧ s2.next_avail_jid = s.next_avail_jid
      ∧ s2.inserted = s.inserted ∧ s2.out = s.out) := by
  have hpid := get_job_pid_absent s.job_list jid hno
  constructor
  · refine ⟨s.eprint "fg: job not found\n", ?_, rfl, rfl, rfl, rfl, rfl, rfl, rfl⟩
    have hd : dispatch s env p "fg" n = builtin_fg s env p n := by
      unfold dispatch
      simp
    rw [hd]
    unfold builtin_fg
    rw [if_pos h2, htok]
    simp [hjid, hpid, loop_end, hn]
  · refine ⟨s.eprint "bg: job not found\n", ?_, rfl, rfl, rfl, rfl, rfl, rfl, rfl⟩
    have hd : dispatch s env p "bg" n = builtin_bg s env p n := by
      unfold dispatch
      simp
    rw [hd]
    unfold builtin_bg
    rw [if_pos h2, htok]
    simp [hjid, hpid, loop_end, hn]

theorem fg_bg_job_not_found_witness :
    (parse fg99_line = .ok fg99_parsed ∧ parse bg99_line = .ok bg99_parsed
      ∧ atoi ['9', '9'] = some 99)
    ∧ main_iteration roomy_shell (calm_env fg99_line 200 (.exited 0))
        = .next (roomy_shell.eprint "fg: job not found\n")
    ∧ (∃ s2, dispatch roomy_shell (calm_env fg99_line 200 (.exited 0)) fg99_parsed "fg" 6
          = .next s2
        ∧ s2.err = roomy_shell.err ++ ["fg: job not found\n"]
        ∧ s2.sys = roomy_shell.sys ∧ s2.tty_pgrp = roomy_shell.tty_pgrp
        ∧ s2.job_list = roomy_shell.job_list
        ∧ s2.next_avail_jid = roomy_shell.next_avail_jid
        ∧ s2.inserted = roomy_shell.inserted ∧ s2.out = roomy_shell.out)
    ∧ (∃ s2, dispatch roomy_shell (calm_env bg99_line 200 (.exited 0)) bg99_parsed "bg" 6
          = .next s2
        ∧ s2.err = roomy_shell.err ++ ["bg: job not found\n"]
        ∧ s2.sys = roomy_shell.sys ∧ s2.tty_pgrp = roomy_shell.tty_pgrp
        ∧ s2.job_list = roomy_shell.job_list
        ∧ s2.next_avail_jid = roomy_shell.next_avail_jid
        ∧ s2.inserted = roomy_shell.inserted ∧ s2.out = roomy_shell.out) :=
  ⟨⟨rfl, rfl, by decide⟩, rfl,
   (fg_bg_job_not_found roomy_shell (calm_env fg99_line 200 (.exited 0)) fg99_parsed 6
      ['9', '9'] 99 rfl (by decide) (by decide) (by decide) (by decide)).1,
   (fg_bg_job_not_found roomy_shell (calm_env bg99_line 200 (.exited 0)) bg99_parsed 6
      ['9', '9'] 99 rfl (by decide) (by decide) (by decide) (by decide)).2⟩

/-- C13. Two lines that hold a character that is not white space and on
which `parse` returns 0, yet leave no command token: the line "&" and the
line "> out.txt".  After `parse`, `token_num` is 0, `main` does not take its
white-space `continue`, and the dispatch reads `tokens[0]`, which is not a
token of the line (NULL after "&"): the iteration has no defined
behaviour. -/
theorem blank_command_lines_reach_dispatch :
    (parse amp_line = .ok amp_parsed
      ∧ amp_parsed.token_num = 0 ∧ amp_parsed.tokens[0]? = none
      ∧ (c_str amp_line).all is_delim = false
      ∧ main_iteration roomy_shell (calm_env amp_line 200 (.exited 0)) = .undefined)
    ∧ (parse redirect_only_line = .ok redirect_only_parsed
      ∧ redirect_only_parsed.token_num = 0 ∧ redirect_only_parsed.tokens[0]? = none
      ∧ (c_str redirect_only_line).all is_delim = false
      ∧ main_iteration roomy_shell (calm_env redirect_only_line 200 (.exited 0))
          = .undefined) :=
  ⟨⟨rfl, rfl, rfl, by decide, rfl⟩, ⟨rfl, rfl, rfl, by decide, rfl⟩⟩

end Psh
